import Mathlib

/-!
Verification of the Open3D GUI fragment (ImguiFilamentBridge, Combobox, Menu)
against its natural-language specification.

The C++ sources are shallowly embedded:
* `ImguiFilamentBridge.cpp` — the bridge state (buffer slots, material-instance
  pool, renderable, sync flag) becomes an explicit `BridgeState`, and
  `update` / `createBuffers` / `populateVertexData` / `syncThreads` become
  state-passing functions.  Machine integers are modelled as `Int`/`Nat` with
  explicit reduction modulo 2^16 where the C++ code converts or packs.
  Clip-rectangle coordinates are taken after `ScaleClipRects`, as the
  integer-valued screen coordinates that the `uint16_t` casts consume.
* `Combobox.cpp` — a record of items and current index; setters additionally
  return the list of `on_value_changed_` invocations they perform (the source
  setters contain no such call site, which is how the "no change notice fires"
  contract becomes visible in the model).
* `Menu.cpp` — a mutually inductive tree mirroring `Menu::Impl` (item vector
  plus the `id2idx_` map, submenus at arbitrary depth).
-/

namespace Open3D

/-! ## Clip rectangles and the scissor key (`makeScissorKey`) -/

/-- An ImGui clip rectangle `ImVec4 (x, y, z, w)` = (left, top, right, bottom)
in screen space.  Coordinates are modelled as integers: they are the
post-`ScaleClipRects` values as consumed by the `uint16_t` casts in
`makeScissorKey`. -/
structure ClipRect where
  x : Int
  y : Int
  z : Int
  w : Int
deriving DecidableEq, Repr

/-- The C conversion of an integer value to `uint16_t`: reduction modulo
2^16 (two's-complement wrap-around for negative values). -/
def toU16 (v : Int) : Nat := (v % 65536).toNat

/-- `makeScissorKey` from `ImguiFilamentBridge.cpp`: packs
(left, bottom, width, height), each converted to `uint16_t`, into one 64-bit
key at bit offsets 0, 16, 32, 48. -/
def makeScissorKey (fbheight : Int) (clipRect : ClipRect) : Nat :=
  (toU16 clipRect.x <<< 0) ||| (toU16 (fbheight - clipRect.w) <<< 16) |||
    (toU16 (clipRect.z - clipRect.x) <<< 32) |||
    (toU16 (clipRect.w - clipRect.y) <<< 48)

/-- Saturating ("clamping") conversion into the 16-bit unsigned range, which
is what the spec's wording "clamped to 16-bit unsigned range" describes. -/
def clampU16 (v : Int) : Nat := (max 0 (min v 65535)).toNat

/-- The key as the spec's words describe it: components clamped (saturated)
to [0, 65535] before packing.  Kept separate from `makeScissorKey` (which is
translated from the source) so the two can be compared. -/
def makeScissorKeyClamped (fbheight : Int) (clipRect : ClipRect) : Nat :=
  (clampU16 clipRect.x <<< 0) ||| (clampU16 (fbheight - clipRect.w) <<< 16) |||
    (clampU16 (clipRect.z - clipRect.x) <<< 32) |||
    (clampU16 (clipRect.w - clipRect.y) <<< 48)

theorem toU16_lt (v : Int) : toU16 v < 65536 := by
  have h0 : (0 : Int) ≤ v % 65536 := Int.emod_nonneg v (by norm_num)
  have h1 : v % 65536 < 65536 := Int.emod_lt_of_pos v (by norm_num)
  unfold toU16
  omega

theorem toU16_of_mem_range (v : Int) (h0 : 0 ≤ v) (h1 : v < 65536) :
    (toU16 v : Int) = v := by
  unfold toU16
  rw [Int.emod_eq_of_lt h0 h1]
  exact Int.toNat_of_nonneg h0

/-- Arithmetic characterisation of the packed key: the or-of-shifts equals the
weighted sum of the four 16-bit fields. -/
theorem makeScissorKey_eq_sum (fbheight : Int) (r : ClipRect) :
    makeScissorKey fbheight r =
      toU16 r.x + 2 ^ 16 * toU16 (fbheight - r.w) +
        2 ^ 32 * toU16 (r.z - r.x) + 2 ^ 48 * toU16 (r.w - r.y) := by
  unfold makeScissorKey
  have hl := toU16_lt r.x
  have hb := toU16_lt (fbheight - r.w)
  have hw := toU16_lt (r.z - r.x)
  have hh := toU16_lt (r.w - r.y)
  generalize toU16 r.x = a at *
  generalize toU16 (fbheight - r.w) = b at *
  generalize toU16 (r.z - r.x) = c at *
  generalize toU16 (r.w - r.y) = d at *
  have ha : a <<< 0 = a := rfl
  have hbs : b <<< 16 = 2 ^ 16 * b := by
    rw [Nat.shiftLeft_eq, Nat.mul_comm]
  have hcs : c <<< 32 = 2 ^ 32 * c := by
    rw [Nat.shiftLeft_eq, Nat.mul_comm]
  have hds : d <<< 48 = 2 ^ 48 * d := by
    rw [Nat.shiftLeft_eq, Nat.mul_comm]
  rw [ha, hbs, hcs, hds]
  have step1 : a ||| 2 ^ 16 * b = 2 ^ 16 * b + a := by
    rw [Nat.lor_comm, ← Nat.mul_add_lt_is_or (by omega : a < 2 ^ 16) b]
  have s1lt : 2 ^ 16 * b + a < 2 ^ 32 := by omega
  have step2 : (2 ^ 16 * b + a) ||| 2 ^ 32 * c = 2 ^ 32 * c + (2 ^ 16 * b + a) := by
    rw [Nat.lor_comm, ← Nat.mul_add_lt_is_or s1lt c]
  have s2lt : 2 ^ 32 * c + (2 ^ 16 * b + a) < 2 ^ 48 := by omega
  have step3 : (2 ^ 32 * c + (2 ^ 16 * b + a)) ||| 2 ^ 48 * d =
      2 ^ 48 * d + (2 ^ 32 * c + (2 ^ 16 * b + a)) := by
    rw [Nat.lor_comm, ← Nat.mul_add_lt_is_or s2lt d]
  rw [step1, step2, step3]
  ring

/-- The key fits in 64 bits. -/
theorem makeScissorKey_lt_two_pow_64 (fbheight : Int) (r : ClipRect) :
    makeScissorKey fbheight r < 2 ^ 64 := by
  rw [makeScissorKey_eq_sum]
  have hl := toU16_lt r.x
  have hb := toU16_lt (fbheight - r.w)
  have hw := toU16_lt (r.z - r.x)
  have hh := toU16_lt (r.w - r.y)
  omega

/-- Field extraction: each 16-bit field of the key recovers the corresponding
converted component at bit offsets 0, 16, 32 and 48. -/
theorem makeScissorKey_fields (fbheight : Int) (r : ClipRect) :
    makeScissorKey fbheight r % 2 ^ 16 = toU16 r.x ∧
      makeScissorKey fbheight r / 2 ^ 16 % 2 ^ 16 = toU16 (fbheight - r.w) ∧
      makeScissorKey fbheight r / 2 ^ 32 % 2 ^ 16 = toU16 (r.z - r.x) ∧
      makeScissorKey fbheight r / 2 ^ 48 = toU16 (r.w - r.y) := by
  rw [makeScissorKey_eq_sum]
  have hl := toU16_lt r.x
  have hb := toU16_lt (fbheight - r.w)
  have hw := toU16_lt (r.z - r.x)
  have hh := toU16_lt (r.w - r.y)
  refine ⟨by omega, by omega, by omega, by omega⟩

/-! ## Combobox (`Combobox.cpp`)

State of `Combobox::Impl`: the item strings and `current_index_` (a C `int`,
modelled as `Int` since callers may pass negative indices).  The
`on_value_changed_` std::function is modelled by having every operation return
the list of invocations `(value, index)` it performs; in `Combobox.cpp` the
only call site is inside `Draw`, so the setters' lists are empty. -/

structure Combobox where
  items : List String
  current_index : Int
deriving DecidableEq, Repr

namespace Combobox

/-- `Combobox::ClearItems`. -/
def clearItems (_c : Combobox) : Combobox :=
  { items := [], current_index := 0 }

/-- `Combobox::AddItem`. -/
def addItem (c : Combobox) (name : String) : Combobox :=
  { c with items := c.items ++ [name] }

/-- `Combobox::GetSelectedIndex`. -/
def getSelectedIndex (c : Combobox) : Int := c.current_index

/-- `Combobox::GetSelectedValue`: guarded access, returns `""` when
`current_index_` is out of range. -/
def getSelectedValue (c : Combobox) : String :=
  if 0 ≤ c.current_index ∧ c.current_index < (c.items.length : Int) then
    c.items.getD c.current_index.toNat ""
  else
    ""

/-- `Combobox::SetSelectedIndex`: sets `current_index_` only when
`0 ≤ index < items_.size()`.  Second component: the `on_value_changed_`
invocations performed (none in the source). -/
def setSelectedIndex (c : Combobox) (index : Int) :
    Combobox × List (String × Int) :=
  if 0 ≤ index ∧ index < (c.items.length : Int) then
    ({ c with current_index := index }, [])
  else
    (c, [])

/-- `Combobox::SetSelectedValue`: linear scan for the first item equal to
`value`; on a hit, delegates to `SetSelectedIndex` and returns. -/
def setSelectedValue (c : Combobox) (value : String) :
    Combobox × List (String × Int) :=
  match c.items.findIdx? (fun item => item = value) with
  | some i => c.setSelectedIndex i
  | none => (c, [])

end Combobox

/-! ## Menu (`Menu.cpp`)

`Menu::Impl` holds a vector of `MenuItem` (id, name, optional submenu, the
`is_enabled_` / `is_checked_` / `is_separator_` flags) together with the
`id2idx_` map from item id to index in the vector.  `FindMenuItem` first
consults `id2idx_` of the current level and otherwise recurses into the
submenus in order, returning the first hit. -/

/-- `Menu::ItemId` is a C `int`. -/
abbrev ItemId := Int

/-- Modelled from the spec: `Menu::NO_ITEM`, the sentinel "no item" value
declared in `Menu.h` (the header is not part of the sources); the spec calls
it "a sentinel 'no item' value".  Its concrete value is irrelevant to the
claims; `-1` is used. -/
def NO_ITEM : ItemId := -1

mutual

/-- `Menu::Impl`: the item vector and the `id2idx_` map (modelled as an
association list with at most one entry per key). -/
inductive MenuImpl : Type where
  | mk (items : List MenuItem) (id2idx : List (ItemId × Nat)) : MenuImpl

/-- `Menu::Impl::MenuItem`: id, name, optional submenu and the three flags
(the shortcut key plays no role in the claims and carries no behaviour in the
source beyond display). -/
inductive MenuItem : Type where
  | mk (id : ItemId) (name : String) (submenu : Option MenuImpl)
      (is_enabled : Bool) (is_checked : Bool) (is_separator : Bool) : MenuItem

end

def MenuItem.id : MenuItem → ItemId
  | .mk i _ _ _ _ _ => i

def MenuItem.enabled : MenuItem → Bool
  | .mk _ _ _ e _ _ => e

def MenuItem.checked : MenuItem → Bool
  | .mk _ _ _ _ c _ => c

def MenuItem.submenu : MenuItem → Option MenuImpl
  | .mk _ _ sub _ _ _ => sub

/-- Placeholder used for the (unreachable under well-formed maps) out-of-range
vector access `items_[it->second]`. -/
def defaultMenuItem : MenuItem := .mk NO_ITEM "" none true false false

/-- `std::unordered_map::find` on `id2idx_`. -/
def lookupIdx : List (ItemId × Nat) → ItemId → Option Nat
  | [], _ => none
  | p :: rest, k => if p.1 = k then some p.2 else lookupIdx rest k

/-- `id2idx_[itemId] = v`: replace the entry if the key is present, else add
it. -/
def mapInsert (m : List (ItemId × Nat)) (k : ItemId) (v : Nat) :
    List (ItemId × Nat) :=
  match lookupIdx m k with
  | some _ => m.map (fun p => if p.1 = k then (k, v) else p)
  | none => m ++ [(k, v)]

/-- `Menu::Menu()`: empty item vector, empty map. -/
def emptyMenu : MenuImpl := .mk [] []

/-- `Menu::AddItem`: records the id in `id2idx_` (at the future index) and
appends the item; `is_enabled_` defaults to `true`. -/
def MenuImpl.addItem (m : MenuImpl) (name : String) (itemId : ItemId) :
    MenuImpl :=
  match m with
  | .mk items idx =>
      .mk (items ++ [.mk itemId name none true false false])
        (mapInsert idx itemId items.length)

/-- `Menu::AddMenu`: appends a submenu item with id `NO_ITEM`; `id2idx_` is
not touched. -/
def MenuImpl.addMenu (m : MenuImpl) (name : String) (submenu : MenuImpl) :
    MenuImpl :=
  match m with
  | .mk items idx => .mk (items ++ [.mk NO_ITEM name (some submenu) true false false]) idx

/-- `Menu::AddSeparator`: appends `{NO_ITEM, "", KEY_NONE, nullptr, nullptr,
false, false, true}` (note `is_enabled_ = false` here). -/
def MenuImpl.addSeparator (m : MenuImpl) : MenuImpl :=
  match m with
  | .mk items idx => .mk (items ++ [.mk NO_ITEM "" none false false true]) idx

mutual

/-- `Menu::Impl::FindMenuItem`: consult this level's `id2idx_`; on a miss,
recurse into the submenus in vector order and return the first hit. -/
def findM (k : ItemId) : MenuImpl → Option MenuItem
  | .mk items idx =>
    match lookupIdx idx k with
    | some i => some (items.getD i defaultMenuItem)
    | none => findL k items

def findL (k : ItemId) : List MenuItem → Option MenuItem
  | [] => none
  | .mk _ _ (some sub) _ _ _ :: rest =>
    match findM k sub with
    | some it => some it
    | none => findL k rest
  | _ :: rest => findL k rest

end

mutual

/-- Functional rendering of "`FindMenuItem`, then assign through the returned
pointer": apply `f` to the item `FindMenuItem` locates (no change when the
search misses).  `Menu::SetEnabled` and `Menu::SetChecked` are the two
instantiations. -/
def setM (f : MenuItem → MenuItem) (k : ItemId) : MenuImpl → MenuImpl
  | .mk items idx =>
    match lookupIdx idx k with
    | some i => .mk (items.modify f i) idx
    | none => .mk (setL f k items) idx

def setL (f : MenuItem → MenuItem) (k : ItemId) : List MenuItem → List MenuItem
  | [] => []
  | .mk id name (some sub) e c s :: rest =>
    if (findM k sub).isSome then .mk id name (some (setM f k sub)) e c s :: rest
    else .mk id name (some sub) e c s :: setL f k rest
  | item :: rest => item :: setL f k rest

end

/-- `Menu::SetEnabled`. -/
def MenuImpl.setEnabled (m : MenuImpl) (itemId : ItemId) (enabled : Bool) :
    MenuImpl :=
  setM (fun it => match it with | .mk i n sub _ c s => .mk i n sub enabled c s)
    itemId m

/-- `Menu::SetChecked`. -/
def MenuImpl.setChecked (m : MenuImpl) (itemId : ItemId) (checked : Bool) :
    MenuImpl :=
  setM (fun it => match it with | .mk i n sub e _ s => .mk i n sub e checked s)
    itemId m

/-- `Menu::IsEnabled`: flag of the found item, `false` on a miss. -/
def MenuImpl.isEnabled (m : MenuImpl) (itemId : ItemId) : Bool :=
  match findM itemId m with
  | some it => it.enabled
  | none => false

/-- `Menu::IsChecked`. -/
def MenuImpl.isChecked (m : MenuImpl) (itemId : ItemId) : Bool :=
  match findM itemId m with
  | some it => it.checked
  | none => false

mutual

/-- Does any item anywhere in the tree carry the identifier `k`? -/
def hasIdM (k : ItemId) : MenuImpl → Bool
  | .mk items _ => hasIdL k items

def hasIdL (k : ItemId) : List MenuItem → Bool
  | [] => false
  | .mk id _ sub _ _ _ :: rest =>
    id = k || (match sub with | some m => hasIdM k m | none => false) || hasIdL k rest

end

mutual

/-- Well-formedness of the `id2idx_` maps, as the construction API maintains
it: every map entry points into the vector at an item carrying that id, and
every non-`NO_ITEM` direct item id is present in the map. -/
def wfM : MenuImpl → Bool
  | .mk items idx =>
    idx.all (fun p => p.2 < items.length ∧
        (items.getD p.2 defaultMenuItem).id = p.1 ∧
        (items.getD p.2 defaultMenuItem).submenu.isNone) &&
      items.all (fun it => it.id = NO_ITEM || (lookupIdx idx it.id).isSome) &&
      wfL items

def wfL : List MenuItem → Bool
  | [] => true
  | .mk _ _ (some sub) _ _ _ :: rest => wfM sub && wfL rest
  | _ :: rest => wfL rest

end

/-- A concrete two-level menu: item id 1 at the top level and item id 7
inside a submenu, as the construction API would build it. -/
def menuSampleInner : MenuImpl :=
  .mk [.mk 7 "deep" none true false false] [(7, 0)]

def menuSampleOuter : MenuImpl :=
  .mk [.mk 1 "top" none true false false,
    .mk NO_ITEM "sub" (some menuSampleInner) true false false] [(1, 0)]

/-! ## ImguiFilamentBridge (`ImguiFilamentBridge.cpp`)

The bridge state is `Impl`'s filament-facing fields: the vertex/index buffer
slot vectors (modelled by their capacity plus a generation counter that is
bumped whenever the GPU resource is destroyed and recreated), the size of the
material-instance pool (instance `i` is pool slot `i`), the renderable (the
primitive list it was last built with, or `none` when torn down), the
`has_synced_` flag, and a ghost counter of `Fence::waitAndDestroy` calls.

`UTILS_HAS_THREADING` is a compile-time condition and becomes the `threading`
parameter.  The framebuffer size `(int)(DisplaySize * DisplayFramebufferScale)`
is taken as the two integers the source computes, and clip rectangles are
taken post-`ScaleClipRects`. -/

/-- `sizeof(ImDrawVert)` (two `float2`s and a 32-bit colour). -/
def imDrawVertSize : Nat := 20

/-- `sizeof(ImDrawIdx)` (`unsigned short`). -/
def imDrawIdxSize : Nat := 2

/-- One `ImDrawCmd`: `ElemCount`, `ClipRect`, and whether `UserCallback` is
non-null. -/
structure DrawCmd where
  elemCount : Nat
  clipRect : ClipRect
  hasUserCallback : Bool
deriving DecidableEq, Repr

/-- One `ImDrawList`: vertex/index buffer element counts (`VtxBuffer.Size`,
`IdxBuffer.Size`) and the command buffer. -/
structure DrawList where
  vtxBufferSize : Nat
  idxBufferSize : Nat
  cmdBuffer : List DrawCmd
deriving DecidableEq, Repr

/-- `ImDrawData`: the list of draw lists (`CmdLists`, `CmdListsCount`). -/
structure ImDrawData where
  cmdLists : List DrawList
deriving DecidableEq, Repr

/-- One primitive of the rebuilt Renderable: the `rbuilder.geometry / material`
call for one non-callback command (buffer slot, index sub-range offset and
count, material-pool slot). -/
structure Prim where
  bufferIndex : Nat
  indexOffset : Nat
  elemCount : Nat
  materialIndex : Nat
deriving DecidableEq, Repr

/-- The rebuilt Renderable: `numPrims` is the primitive count the
`RenderableManager::Builder` is constructed with (`nPrims`, which counts every
command, callbacks included); `prims` are the primitives actually written by
`geometry`/`material` calls, in `primIndex` order.  Builder slots beyond
`prims.length` stay unset (callback commands skip emission without advancing
`primIndex`). -/
structure Renderable where
  numPrims : Nat
  prims : List Prim
deriving DecidableEq, Repr

/-- One buffer slot: its element capacity (`getVertexCount` /
`getIndexCount`) and a generation counter bumped by each destroy-and-create.
Generation `0` is the `nullptr` placeholder `resize` fills in. -/
structure Buffer where
  capacity : Nat
  generation : Nat
deriving DecidableEq, Repr

/-- The bridge-lifetime state of `ImguiFilamentBridge::Impl`. -/
structure BridgeState where
  vertex_buffers : List Buffer
  index_buffers : List Buffer
  material_instances : Nat
  has_synced : Bool
  renderable : Option Renderable
  fence_waits : Nat
deriving DecidableEq, Repr

/-- `ImguiFilamentBridge::syncThreads`: under threading, block on a fence
(counted in `fence_waits`) unless `has_synced_` is already set; without
threading the whole body is compiled out. -/
def syncThreads (threading : Bool) (s : BridgeState) : BridgeState :=
  if threading then
    if !s.has_synced then
      { s with fence_waits := s.fence_waits + 1, has_synced := true }
    else s
  else s

/-- `ImguiFilamentBridge::createVertexBuffer`: sync, destroy the slot's old
GPU object, create a new one with `vertexCount(capacity)`. -/
def createVertexBuffer (threading : Bool) (s : BridgeState)
    (bufferIndex capacity : Nat) : BridgeState :=
  let s := syncThreads threading s
  { s with
    vertex_buffers :=
      s.vertex_buffers.modify (fun b => ⟨capacity, b.generation + 1⟩)
        bufferIndex }

/-- `ImguiFilamentBridge::createIndexBuffer`. -/
def createIndexBuffer (threading : Bool) (s : BridgeState)
    (bufferIndex capacity : Nat) : BridgeState :=
  let s := syncThreads threading s
  { s with
    index_buffers :=
      s.index_buffers.modify (fun b => ⟨capacity, b.generation + 1⟩)
        bufferIndex }

/-- First if-block of `ImguiFilamentBridge::createBuffers`: grow the vertex
slot vector (`resize` fills with `nullptr`, generation 0) and create each
appended slot at the default capacity of 1000 vertices. -/
def createBuffersVertexPhase (threading : Bool) (s : BridgeState)
    (numRequiredBuffers : Nat) : BridgeState :=
  if numRequiredBuffers > s.vertex_buffers.length then
    let previousSize := s.vertex_buffers.length
    let s' := { s with
      vertex_buffers :=
        s.vertex_buffers ++
          List.replicate (numRequiredBuffers - previousSize) ⟨0, 0⟩ }
    (List.range' previousSize (numRequiredBuffers - previousSize)).foldl
      (fun acc i => createVertexBuffer threading acc i 1000) s'
  else s

/-- Second if-block of `createBuffers`: same for index slots at the default
capacity of 5000 indices. -/
def createBuffersIndexPhase (threading : Bool) (s : BridgeState)
    (numRequiredBuffers : Nat) : BridgeState :=
  if numRequiredBuffers > s.index_buffers.length then
    let previousSize := s.index_buffers.length
    let s' := { s with
      index_buffers :=
        s.index_buffers ++
          List.replicate (numRequiredBuffers - previousSize) ⟨0, 0⟩ }
    (List.range' previousSize (numRequiredBuffers - previousSize)).foldl
      (fun acc i => createIndexBuffer threading acc i 5000) s'
  else s

/-- `ImguiFilamentBridge::createBuffers`: the two if-blocks in sequence;
pre-existing slots are not touched. -/
def createBuffers (threading : Bool) (s : BridgeState)
    (numRequiredBuffers : Nat) : BridgeState :=
  createBuffersIndexPhase threading
    (createBuffersVertexPhase threading s numRequiredBuffers) numRequiredBuffers

/-- `ImguiFilamentBridge::populateVertexData`: recreate a slot at exactly the
required element count when its capacity is insufficient, then hand a staging
copy to the engine (the copy itself has no effect on the modelled state). -/
def populateVertexData (threading : Bool) (s : BridgeState)
    (bufferIndex vbSizeInBytes ibSizeInBytes : Nat) : BridgeState :=
  let requiredVertCount := vbSizeInBytes / imDrawVertSize
  let capacityVertCount :=
    (s.vertex_buffers.getD bufferIndex ⟨0, 0⟩).capacity
  let s :=
    if requiredVertCount > capacityVertCount then
      createVertexBuffer threading s bufferIndex requiredVertCount
    else s
  let requiredIndexCount := ibSizeInBytes / 2
  let capacityIndexCount :=
    (s.index_buffers.getD bufferIndex ⟨0, 0⟩).capacity
  if requiredIndexCount > capacityIndexCount then
    createIndexBuffer threading s bufferIndex requiredIndexCount
  else s

/-- The scissor keys of all commands of the frame, in draw order (the
insertion order into the `scissorRects` map). -/
def cmdKeys (fbheight : Int) (imguiData : ImDrawData) : List Nat :=
  imguiData.cmdLists.flatMap
    (fun cmds => cmds.cmdBuffer.map (fun pcmd => makeScissorKey fbheight pcmd.clipRect))

/-- The unique scissor keys of the frame (the key set of `scissorRects`;
iteration order of the `unordered_map` is irrelevant to every claim, so the
deduplicated draw order stands in for it). -/
def frameKeys (fbheight : Int) (imguiData : ImDrawData) : List Nat :=
  (cmdKeys fbheight imguiData).dedup

/-- The emission loop over one command buffer: a callback command only
advances `indexOffset`; any other command appends one primitive whose material
is the pool slot assigned to its scissor key. -/
def emitCmds (fbheight : Int) (keys : List Nat) (bufferIndex : Nat) :
    List DrawCmd → Nat → List Prim
  | [], _ => []
  | pcmd :: rest, indexOffset =>
    if pcmd.hasUserCallback then
      emitCmds fbheight keys bufferIndex rest (indexOffset + pcmd.elemCount)
    else
      { bufferIndex := bufferIndex, indexOffset := indexOffset,
        elemCount := pcmd.elemCount,
        materialIndex := keys.indexOf (makeScissorKey fbheight pcmd.clipRect) } ::
        emitCmds fbheight keys bufferIndex rest (indexOffset + pcmd.elemCount)

/-- All primitives of the frame: per draw list, `indexOffset` restarts at 0
and `bufferIndex` is the list's position. -/
def emitPrims (fbheight : Int) (keys : List Nat) (imguiData : ImDrawData) :
    List Prim :=
  imguiData.cmdLists.enum.flatMap
    (fun p => emitCmds fbheight keys p.1 p.2.cmdBuffer 0)

/-- The `populateVertexData` calls of the frame loop (byte sizes as the source
passes them: element count times element size). -/
def populateAll (threading : Bool) (s : BridgeState) (imguiData : ImDrawData) :
    BridgeState :=
  imguiData.cmdLists.enum.foldl
    (fun acc p =>
      populateVertexData threading acc p.1 (p.2.vtxBufferSize * imDrawVertSize)
        (p.2.idxBufferSize * imDrawIdxSize))
    s

/-- `nPrims`: the builder's primitive count, summing `CmdBuffer.size()` over
all draw lists (callback commands included). -/
def countPrims (imguiData : ImDrawData) : Nat :=
  (imguiData.cmdLists.map (fun cmds => cmds.cmdBuffer.length)).sum

/-- `ImguiFilamentBridge::update`:
clear `has_synced_`; skip the frame when the scaled framebuffer is empty;
ensure buffer slots; grow the material pool to the unique-key count; destroy
the renderable and rebuild it (only when at least one draw list is present)
from the emitted primitives, populating the buffer slots along the way. -/
def update (threading : Bool) (fbwidth fbheight : Int)
    (imguiData : ImDrawData) (s : BridgeState) : BridgeState :=
  let s := { s with has_synced := false }
  if fbwidth = 0 ∨ fbheight = 0 then s
  else
    let s := createBuffers threading s imguiData.cmdLists.length
    let uniqueKeys := frameKeys fbheight imguiData
    let s :=
      if uniqueKeys.length > s.material_instances then
        { s with material_instances := uniqueKeys.length }
      else s
    let prims := emitPrims fbheight uniqueKeys imguiData
    let s := populateAll threading s imguiData
    { s with
      renderable :=
        if imguiData.cmdLists.length > 0 then
          some ⟨countPrims imguiData, prims⟩
        else none }

/-- Running sum of `ElemCount` over the commands preceding position `j` of a
command buffer. -/
def elemSumBefore (cmds : List DrawCmd) (j : Nat) : Nat :=
  ((cmds.take j).map (fun c => c.elemCount)).sum

/-- Closed-form (spec-side) description of the primitives of one draw list:
one primitive per non-callback command, whose index offset is the running sum
of `ElemCount` over the preceding commands of that list.  Stated from the
spec's round-trip wording, to be compared with `emitCmds`. -/
def specPrimsOfList (fbheight : Int) (keys : List Nat) (bufferIndex : Nat)
    (cmds : List DrawCmd) : List Prim :=
  (cmds.enum.filter (fun p => !p.2.hasUserCallback)).map
    (fun p =>
      { bufferIndex := bufferIndex, indexOffset := elemSumBefore cmds p.1,
        elemCount := p.2.elemCount,
        materialIndex := keys.indexOf (makeScissorKey fbheight p.2.clipRect) })

/-- Closed-form (spec-side) description of the whole frame's primitives. -/
def specPrims (fbheight : Int) (keys : List Nat) (imguiData : ImDrawData) :
    List Prim :=
  imguiData.cmdLists.enum.flatMap
    (fun p => specPrimsOfList fbheight keys p.1 p.2.cmdBuffer)

/-- A small concrete bridge state (one 1000-vertex slot, one 5000-index slot)
used to evaluate the theorems on concrete inputs. -/
def sampleState : BridgeState :=
  ⟨[⟨1000, 1⟩], [⟨5000, 1⟩], 0, false, none, 0⟩

/-- A small concrete frame: one draw list of 10 vertices, 30 indices and a
single 30-element command. -/
def sampleDrawData : ImDrawData :=
  ⟨[⟨10, 30, [⟨30, ⟨0, 0, 10, 10⟩, false⟩]⟩]⟩

/-- The scissor keys of the frame's commands that do not carry a user
callback — exactly the keys that emitted primitives reference. -/
def ncCmdKeys (fbheight : Int) (imguiData : ImDrawData) : List Nat :=
  imguiData.cmdLists.flatMap
    (fun l =>
      (l.cmdBuffer.filter (fun c => !c.hasUserCallback)).map
        (fun c => makeScissorKey fbheight c.clipRect))

/-- A two-list frame with a user-callback command in the middle, used as a
concrete round-trip input. -/
def rtSample : ImDrawData :=
  ⟨[⟨4, 18, [⟨3, ⟨0, 0, 50, 50⟩, false⟩, ⟨6, ⟨10, 10, 60, 60⟩, true⟩,
      ⟨9, ⟨0, 0, 50, 50⟩, false⟩]⟩,
    ⟨2, 3, [⟨3, ⟨10, 10, 60, 60⟩, false⟩]⟩]⟩

/-- One frame's inputs to `update`. -/
structure Frame where
  fbwidth : Int
  fbheight : Int
  imguiData : ImDrawData
deriving Repr

/-- A sequence of `update` calls. -/
def runFrames (threading : Bool) (frames : List Frame) (s : BridgeState) :
    BridgeState :=
  frames.foldl (fun acc f => update threading f.fbwidth f.fbheight f.imguiData acc) s

/-- Vertex capacity of slot `j` (`getVertexCount`), 0 when the slot does not
exist. -/
def capV (s : BridgeState) (j : Nat) : Nat :=
  (s.vertex_buffers.getD j ⟨0, 0⟩).capacity

/-- Index capacity of slot `j` (`getIndexCount`). -/
def capI (s : BridgeState) (j : Nat) : Nat :=
  (s.index_buffers.getD j ⟨0, 0⟩).capacity

/-- Fence accounting invariant: within one episode starting at `fw0` fence
waits, the counter never decreases, and exceeds `fw0` only once `has_synced_`
is set (and only under threading). -/
def fenceBound (threading : Bool) (fw0 : Nat) (s : BridgeState) : Prop :=
  fw0 ≤ s.fence_waits ∧
    s.fence_waits ≤
      fw0 + (if threading then (if s.has_synced then 1 else 0) else 0)

/-! ## Helper lemmas -/

namespace Combobox

theorem setSelectedIndex_events (c : Combobox) (j : Int) :
    (c.setSelectedIndex j).2 = [] := by
  unfold setSelectedIndex
  split <;> rfl

theorem findIdx?_eq_none_of_all_ne (l : List String) (v : String)
    (h : ∀ item ∈ l, item ≠ v) :
    l.findIdx? (fun item => item = v) = none := by
  induction l with
  | nil => rfl
  | cons a l ih =>
    have ha : a ≠ v := h a (List.mem_cons_self a l)
    rw [List.findIdx?_cons]
    simp only [ha, decide_eq_true_eq, if_neg, decide_eq_false ha]
    simp only [Nat.zero_add]
    rw [List.findIdx?_succ, ih (fun item hm => h item (List.mem_cons_of_mem a hm))]
    simp

theorem setSelectedValue_events (c : Combobox) (w : String) :
    (c.setSelectedValue w).2 = [] := by
  unfold setSelectedValue
  cases h : c.items.findIdx? (fun item => item = w) with
  | none => rfl
  | some i => exact setSelectedIndex_events c i

end Combobox

theorem syncThreads_buffers (t : Bool) (s : BridgeState) :
    (syncThreads t s).vertex_buffers = s.vertex_buffers ∧
      (syncThreads t s).index_buffers = s.index_buffers ∧
      (syncThreads t s).material_instances = s.material_instances ∧
      (syncThreads t s).renderable = s.renderable := by
  unfold syncThreads
  split
  · split <;> exact ⟨rfl, rfl, rfl, rfl⟩
  · exact ⟨rfl, rfl, rfl, rfl⟩

theorem createVertexBuffer_parts (t : Bool) (s : BridgeState) (i cap : Nat) :
    (createVertexBuffer t s i cap).vertex_buffers =
        s.vertex_buffers.modify (fun b => ⟨cap, b.generation + 1⟩) i ∧
      (createVertexBuffer t s i cap).index_buffers = s.index_buffers ∧
      (createVertexBuffer t s i cap).material_instances =
        s.material_instances ∧
      (createVertexBuffer t s i cap).renderable = s.renderable := by
  obtain ⟨h1, h2, h3, h4⟩ := syncThreads_buffers t s
  unfold createVertexBuffer
  refine ⟨?_, h2, h3, h4⟩
  show (syncThreads t s).vertex_buffers.modify _ _ = _
  rw [h1]

theorem createIndexBuffer_parts (t : Bool) (s : BridgeState) (i cap : Nat) :
    (createIndexBuffer t s i cap).index_buffers =
        s.index_buffers.modify (fun b => ⟨cap, b.generation + 1⟩) i ∧
      (createIndexBuffer t s i cap).vertex_buffers = s.vertex_buffers ∧
      (createIndexBuffer t s i cap).material_instances =
        s.material_instances ∧
      (createIndexBuffer t s i cap).renderable = s.renderable := by
  obtain ⟨h1, h2, h3, h4⟩ := syncThreads_buffers t s
  unfold createIndexBuffer
  refine ⟨?_, h1, h3, h4⟩
  show (syncThreads t s).index_buffers.modify _ _ = _
  rw [h2]

theorem foldCreateV_spec (t : Bool) (cnt : Nat) : ∀ (start : Nat) (s : BridgeState),
    ((List.range' start cnt).foldl
        (fun acc i => createVertexBuffer t acc i 1000) s).index_buffers =
        s.index_buffers ∧
      ((List.range' start cnt).foldl
        (fun acc i => createVertexBuffer t acc i 1000) s).material_instances =
        s.material_instances ∧
      ((List.range' start cnt).foldl
        (fun acc i => createVertexBuffer t acc i 1000) s).renderable =
        s.renderable ∧
      ((List.range' start cnt).foldl
        (fun acc i => createVertexBuffer t acc i 1000) s).vertex_buffers.length =
        s.vertex_buffers.length ∧
      (∀ j, j < start ∨ start + cnt ≤ j →
        ((List.range' start cnt).foldl
          (fun acc i => createVertexBuffer t acc i 1000) s).vertex_buffers[j]? =
          s.vertex_buffers[j]?) ∧
      (∀ j, start ≤ j → j < start + cnt →
        ((List.range' start cnt).foldl
          (fun acc i => createVertexBuffer t acc i 1000) s).vertex_buffers[j]? =
          (s.vertex_buffers[j]?).map (fun b => ⟨1000, b.generation + 1⟩)) := by
  induction cnt with
  | zero =>
    intro start s
    exact ⟨rfl, rfl, rfl, rfl, fun j _ => rfl, fun j h1 h2 => absurd h2 (by omega)⟩
  | succ k ih =>
    intro start s
    rw [List.range'_succ, List.foldl_cons]
    obtain ⟨c1, c2, c3, c4⟩ := createVertexBuffer_parts t s start 1000
    obtain ⟨i1, i2, i3, i4, i5, i6⟩ := ih (start + 1) (createVertexBuffer t s start 1000)
    refine ⟨by rw [i1, c2], by rw [i2, c3], by rw [i3, c4],
      by rw [i4, c1, List.length_modify], ?_, ?_⟩
    · intro j hj
      have hj' : j < start + 1 ∨ start + 1 + k ≤ j := by omega
      rw [i5 j hj', c1, List.getElem?_modify]
      have : ¬ start = j := by omega
      simp [this]
    · intro j hj1 hj2
      rcases Nat.eq_or_lt_of_le hj1 with heq | hlt
      · rw [i5 j (by omega), c1, List.getElem?_modify, heq]
        cases s.vertex_buffers[j]? <;> simp
      · rw [i6 j hlt (by omega), c1, List.getElem?_modify]
        have hne : ¬ start = j := by omega
        simp [hne]

theorem foldCreateI_spec (t : Bool) (cnt : Nat) : ∀ (start : Nat) (s : BridgeState),
    ((List.range' start cnt).foldl
        (fun acc i => createIndexBuffer t acc i 5000) s).vertex_buffers =
        s.vertex_buffers ∧
      ((List.range' start cnt).foldl
        (fun acc i => createIndexBuffer t acc i 5000) s).material_instances =
        s.material_instances ∧
      ((List.range' start cnt).foldl
        (fun acc i => createIndexBuffer t acc i 5000) s).renderable =
        s.renderable ∧
      ((List.range' start cnt).foldl
        (fun acc i => createIndexBuffer t acc i 5000) s).index_buffers.length =
        s.index_buffers.length ∧
      (∀ j, j < start ∨ start + cnt ≤ j →
        ((List.range' start cnt).foldl
          (fun acc i => createIndexBuffer t acc i 5000) s).index_buffers[j]? =
          s.index_buffers[j]?) ∧
      (∀ j, start ≤ j → j < start + cnt →
        ((List.range' start cnt).foldl
          (fun acc i => createIndexBuffer t acc i 5000) s).index_buffers[j]? =
          (s.index_buffers[j]?).map (fun b => ⟨5000, b.generation + 1⟩)) := by
  induction cnt with
  | zero =>
    intro start s
    exact ⟨rfl, rfl, rfl, rfl, fun j _ => rfl, fun j h1 h2 => absurd h2 (by omega)⟩
  | succ k ih =>
    intro start s
    rw [List.range'_succ, List.foldl_cons]
    obtain ⟨c1, c2, c3, c4⟩ := createIndexBuffer_parts t s start 5000
    obtain ⟨i1, i2, i3, i4, i5, i6⟩ := ih (start + 1) (createIndexBuffer t s start 5000)
    refine ⟨by rw [i1, c2], by rw [i2, c3], by rw [i3, c4],
      by rw [i4, c1, List.length_modify], ?_, ?_⟩
    · intro j hj
      have hj' : j < start + 1 ∨ start + 1 + k ≤ j := by omega
      rw [i5 j hj', c1, List.getElem?_modify]
      have : ¬ start = j := by omega
      simp [this]
    · intro j hj1 hj2
      rcases Nat.eq_or_lt_of_le hj1 with heq | hlt
      · rw [i5 j (by omega), c1, List.getElem?_modify, heq]
        cases s.index_buffers[j]? <;> simp
      · rw [i6 j hlt (by omega), c1, List.getElem?_modify]
        have hne : ¬ start = j := by omega
        simp [hne]

theorem createBuffersVertexPhase_spec (t : Bool) (s : BridgeState) (n : Nat) :
    (createBuffersVertexPhase t s n).index_buffers = s.index_buffers ∧
      (createBuffersVertexPhase t s n).material_instances =
        s.material_instances ∧
      (createBuffersVertexPhase t s n).renderable = s.renderable ∧
      (n ≤ s.vertex_buffers.length →
        (createBuffersVertexPhase t s n).vertex_buffers = s.vertex_buffers) ∧
      (s.vertex_buffers.length < n →
        (createBuffersVertexPhase t s n).vertex_buffers.length = n ∧
        (∀ j, j < s.vertex_buffers.length →
          (createBuffersVertexPhase t s n).vertex_buffers[j]? =
            s.vertex_buffers[j]?) ∧
        (∀ j, s.vertex_buffers.length ≤ j → j < n →
          (createBuffersVertexPhase t s n).vertex_buffers[j]? =
            some ⟨1000, 1⟩)) := by
  unfold createBuffersVertexPhase
  by_cases h : n > s.vertex_buffers.length
  · rw [if_pos h]
    set len := s.vertex_buffers.length with hlen
    set s1 : BridgeState := { s with
      vertex_buffers := s.vertex_buffers ++ List.replicate (n - len) ⟨0, 0⟩ }
      with hs1
    obtain ⟨f1, f2, f3, f4, f5, f6⟩ := foldCreateV_spec t (n - len) len s1
    have hs1vb : s1.vertex_buffers =
        s.vertex_buffers ++ List.replicate (n - len) ⟨0, 0⟩ := rfl
    have hs1len : s1.vertex_buffers.length = n := by
      rw [hs1vb, List.length_append, List.length_replicate]
      omega
    refine ⟨f1, f2, f3, by omega, fun _ => ⟨by rw [f4, hs1len], ?_, ?_⟩⟩
    · intro j hj
      rw [f5 j (Or.inl hj), hs1vb, List.getElem?_append_left hj]
    · intro j hj1 hj2
      rw [f6 j hj1 (by omega), hs1vb, List.getElem?_append_right hj1,
        List.getElem?_replicate_of_lt (by omega)]
      rfl
  · rw [if_neg h]
    exact ⟨rfl, rfl, rfl, fun _ => rfl, fun hc => absurd hc h⟩

theorem createBuffersIndexPhase_spec (t : Bool) (s : BridgeState) (n : Nat) :
    (createBuffersIndexPhase t s n).vertex_buffers = s.vertex_buffers ∧
      (createBuffersIndexPhase t s n).material_instances =
        s.material_instances ∧
      (createBuffersIndexPhase t s n).renderable = s.renderable ∧
      (n ≤ s.index_buffers.length →
        (createBuffersIndexPhase t s n).index_buffers = s.index_buffers) ∧
      (s.index_buffers.length < n →
        (createBuffersIndexPhase t s n).index_buffers.length = n ∧
        (∀ j, j < s.index_buffers.length →
          (createBuffersIndexPhase t s n).index_buffers[j]? =
            s.index_buffers[j]?) ∧
        (∀ j, s.index_buffers.length ≤ j → j < n →
          (createBuffersIndexPhase t s n).index_buffers[j]? =
            some ⟨5000, 1⟩)) := by
  unfold createBuffersIndexPhase
  by_cases h : n > s.index_buffers.length
  · rw [if_pos h]
    set len := s.index_buffers.length with hlen
    set s1 : BridgeState := { s with
      index_buffers := s.index_buffers ++ List.replicate (n - len) ⟨0, 0⟩ }
      with hs1
    obtain ⟨f1, f2, f3, f4, f5, f6⟩ := foldCreateI_spec t (n - len) len s1
    have hs1ib : s1.index_buffers =
        s.index_buffers ++ List.replicate (n - len) ⟨0, 0⟩ := rfl
    have hs1len : s1.index_buffers.length = n := by
      rw [hs1ib, List.length_append, List.length_replicate]
      omega
    refine ⟨f1, f2, f3, by omega, fun _ => ⟨by rw [f4, hs1len], ?_, ?_⟩⟩
    · intro j hj
      rw [f5 j (Or.inl hj), hs1ib, List.getElem?_append_left hj]
    · intro j hj1 hj2
      rw [f6 j hj1 (by omega), hs1ib, List.getElem?_append_right hj1,
        List.getElem?_replicate_of_lt (by omega)]
      rfl
  · rw [if_neg h]
    exact ⟨rfl, rfl, rfl, fun _ => rfl, fun hc => absurd hc h⟩

theorem populateVertexData_spec (t : Bool) (s : BridgeState)
    (i vbb ibb : Nat) :
    (populateVertexData t s i vbb ibb).material_instances =
        s.material_instances ∧
      (populateVertexData t s i vbb ibb).renderable = s.renderable ∧
      (populateVertexData t s i vbb ibb).vertex_buffers =
        (if vbb / imDrawVertSize >
            (s.vertex_buffers.getD i ⟨0, 0⟩).capacity then
          s.vertex_buffers.modify
            (fun b => ⟨vbb / imDrawVertSize, b.generation + 1⟩) i
        else s.vertex_buffers) ∧
      (populateVertexData t s i vbb ibb).index_buffers =
        (if ibb / 2 > (s.index_buffers.getD i ⟨0, 0⟩).capacity then
          s.index_buffers.modify (fun b => ⟨ibb / 2, b.generation + 1⟩) i
        else s.index_buffers) := by
  simp only [populateVertexData]
  obtain ⟨cv, ci, cm, cr⟩ := createVertexBuffer_parts t s i (vbb / imDrawVertSize)
  by_cases hv : vbb / imDrawVertSize > (s.vertex_buffers.getD i ⟨0, 0⟩).capacity
  · rw [if_pos hv, ci]
    by_cases hi : ibb / 2 > (s.index_buffers.getD i ⟨0, 0⟩).capacity
    · rw [if_pos hi]
      obtain ⟨dv, di, dm, dr⟩ := createIndexBuffer_parts t
        (createVertexBuffer t s i (vbb / imDrawVertSize)) i (ibb / 2)
      exact ⟨by rw [dm, cm], by rw [dr, cr], by rw [di, cv, if_pos hv],
        by rw [dv, ci, if_pos hi]⟩
    · rw [if_neg hi]
      exact ⟨cm, cr, by rw [cv, if_pos hv], by rw [ci, if_neg hi]⟩
  · rw [if_neg hv]
    by_cases hi : ibb / 2 > (s.index_buffers.getD i ⟨0, 0⟩).capacity
    · rw [if_pos hi]
      obtain ⟨dv, di, dm, dr⟩ := createIndexBuffer_parts t s i (ibb / 2)
      exact ⟨dm, dr, by rw [di, if_neg hv], by rw [dv, if_pos hi]⟩
    · rw [if_neg hi]
      exact ⟨rfl, rfl, by rw [if_neg hv], by rw [if_neg hi]⟩

theorem createBuffers_spec (t : Bool) (s : BridgeState) (n : Nat) :
    (createBuffers t s n).material_instances = s.material_instances ∧
      (createBuffers t s n).renderable = s.renderable ∧
      (n ≤ s.vertex_buffers.length →
        (createBuffers t s n).vertex_buffers = s.vertex_buffers) ∧
      (s.vertex_buffers.length < n →
        (createBuffers t s n).vertex_buffers.length = n ∧
        (∀ j, j < s.vertex_buffers.length →
          (createBuffers t s n).vertex_buffers[j]? = s.vertex_buffers[j]?) ∧
        (∀ j, s.vertex_buffers.length ≤ j → j < n →
          (createBuffers t s n).vertex_buffers[j]? = some ⟨1000, 1⟩)) ∧
      (n ≤ s.index_buffers.length →
        (createBuffers t s n).index_buffers = s.index_buffers) ∧
      (s.index_buffers.length < n →
        (createBuffers t s n).index_buffers.length = n ∧
        (∀ j, j < s.index_buffers.length →
          (createBuffers t s n).index_buffers[j]? = s.index_buffers[j]?) ∧
        (∀ j, s.index_buffers.length ≤ j → j < n →
          (createBuffers t s n).index_buffers[j]? = some ⟨5000, 1⟩)) := by
  obtain ⟨v1, v2, v3, v4, v5⟩ := createBuffersVertexPhase_spec t s n
  obtain ⟨w1, w2, w3, w4, w5⟩ :=
    createBuffersIndexPhase_spec t (createBuffersVertexPhase t s n) n
  have hdef : createBuffers t s n =
      createBuffersIndexPhase t (createBuffersVertexPhase t s n) n := rfl
  rw [v1] at w4 w5
  refine ⟨by rw [hdef, w2, v2], by rw [hdef, w3, v3], ?_, ?_, ?_, ?_⟩
  · intro h
    rw [hdef, w1, v4 h]
  · intro h
    obtain ⟨g1, g2, g3⟩ := v5 h
    exact ⟨by rw [hdef, w1, g1], fun j hj => by rw [hdef, w1, g2 j hj],
      fun j hj1 hj2 => by rw [hdef, w1, g3 j hj1 hj2]⟩
  · intro h
    rw [hdef, w4 h]
  · intro h
    obtain ⟨g1, g2, g3⟩ := w5 h
    exact ⟨by rw [hdef, g1], fun j hj => by rw [hdef, g2 j hj],
      fun j hj1 hj2 => by rw [hdef, g3 j hj1 hj2]⟩

theorem foldl_preserve {α β : Type _} (P : β → Prop) (step : β → α → β)
    (hstep : ∀ b a, P b → P (step b a)) :
    ∀ (l : List α) (b : β), P b → P (l.foldl step b)
  | [], _, hb => hb
  | a :: l, b, hb => foldl_preserve P step hstep l (step b a) (hstep b a hb)

theorem update_skip_eq (t : Bool) (fbw fbh : Int) (dd : ImDrawData)
    (s : BridgeState) (h : fbw = 0 ∨ fbh = 0) :
    update t fbw fbh dd s = { s with has_synced := false } := by
  unfold update
  rw [if_pos h]

theorem update_eq (t : Bool) (fbw fbh : Int) (dd : ImDrawData)
    (s : BridgeState) (h : ¬ (fbw = 0 ∨ fbh = 0)) :
    update t fbw fbh dd s =
      { populateAll t
          (if (frameKeys fbh dd).length >
              (createBuffers t { s with has_synced := false }
                dd.cmdLists.length).material_instances then
            { createBuffers t { s with has_synced := false }
                dd.cmdLists.length with
              material_instances := (frameKeys fbh dd).length }
          else
            createBuffers t { s with has_synced := false }
              dd.cmdLists.length) dd with
        renderable :=
          if dd.cmdLists.length > 0 then
            some ⟨countPrims dd, emitPrims fbh (frameKeys fbh dd) dd⟩
          else none } := by
  unfold update
  rw [if_neg h]

theorem fenceBound_syncThreads (t : Bool) (fw0 : Nat) (s : BridgeState)
    (h : fenceBound t fw0 s) : fenceBound t fw0 (syncThreads t s) := by
  obtain ⟨hlo, hhi⟩ := h
  unfold fenceBound syncThreads
  split_ifs at hhi ⊢ with h1 h2 <;> simp_all <;> omega

theorem fenceBound_createVertexBuffer (t : Bool) (fw0 : Nat)
    (s : BridgeState) (i cap : Nat) (h : fenceBound t fw0 s) :
    fenceBound t fw0 (createVertexBuffer t s i cap) :=
  fenceBound_syncThreads t fw0 s h

theorem fenceBound_createIndexBuffer (t : Bool) (fw0 : Nat)
    (s : BridgeState) (i cap : Nat) (h : fenceBound t fw0 s) :
    fenceBound t fw0 (createIndexBuffer t s i cap) :=
  fenceBound_syncThreads t fw0 s h

theorem fenceBound_createBuffersVertexPhase (t : Bool) (fw0 : Nat)
    (s : BridgeState) (n : Nat) (h : fenceBound t fw0 s) :
    fenceBound t fw0 (createBuffersVertexPhase t s n) := by
  unfold createBuffersVertexPhase
  split
  · exact foldl_preserve (fenceBound t fw0) _
      (fun b a hb => fenceBound_createVertexBuffer t fw0 b a 1000 hb) _ _ h
  · exact h

theorem fenceBound_createBuffersIndexPhase (t : Bool) (fw0 : Nat)
    (s : BridgeState) (n : Nat) (h : fenceBound t fw0 s) :
    fenceBound t fw0 (createBuffersIndexPhase t s n) := by
  unfold createBuffersIndexPhase
  split
  · exact foldl_preserve (fenceBound t fw0) _
      (fun b a hb => fenceBound_createIndexBuffer t fw0 b a 5000 hb) _ _ h
  · exact h

theorem fenceBound_createBuffers (t : Bool) (fw0 : Nat) (s : BridgeState)
    (n : Nat) (h : fenceBound t fw0 s) :
    fenceBound t fw0 (createBuffers t s n) :=
  fenceBound_createBuffersIndexPhase t fw0 _ n
    (fenceBound_createBuffersVertexPhase t fw0 s n h)

theorem fenceBound_populateVertexData (t : Bool) (fw0 : Nat)
    (s : BridgeState) (i vbb ibb : Nat) (h : fenceBound t fw0 s) :
    fenceBound t fw0 (populateVertexData t s i vbb ibb) := by
  simp only [populateVertexData]
  split
  · split
    · exact fenceBound_createIndexBuffer t fw0 _ i _
        (fenceBound_createVertexBuffer t fw0 s i _ h)
    · exact fenceBound_createVertexBuffer t fw0 s i _ h
  · split
    · exact fenceBound_createIndexBuffer t fw0 _ i _ h
    · exact h

theorem fenceBound_populateAll (t : Bool) (fw0 : Nat) (s : BridgeState)
    (dd : ImDrawData) (h : fenceBound t fw0 s) :
    fenceBound t fw0 (populateAll t s dd) :=
  foldl_preserve (fenceBound t fw0) _
    (fun b a hb => fenceBound_populateVertexData t fw0 b a.1 _ _ hb) _ _ h

theorem populateVertexData_noop (t : Bool) (s : BridgeState)
    (i vbb ibb : Nat)
    (h1 : vbb / imDrawVertSize ≤ (s.vertex_buffers.getD i ⟨0, 0⟩).capacity)
    (h2 : ibb / 2 ≤ (s.index_buffers.getD i ⟨0, 0⟩).capacity) :
    populateVertexData t s i vbb ibb = s := by
  have hv : ¬ vbb / imDrawVertSize >
      (s.vertex_buffers.getD i ⟨0, 0⟩).capacity := by omega
  have hi : ¬ ibb / 2 > (s.index_buffers.getD i ⟨0, 0⟩).capacity := by omega
  simp only [populateVertexData]
  rw [if_neg hv, if_neg hi]

theorem foldPopulate_noop (t : Bool) :
    ∀ (l : List (Nat × DrawList)) (s : BridgeState),
    (∀ p ∈ l,
      p.2.vtxBufferSize ≤ (s.vertex_buffers.getD p.1 ⟨0, 0⟩).capacity ∧
        p.2.idxBufferSize ≤ (s.index_buffers.getD p.1 ⟨0, 0⟩).capacity) →
    l.foldl
      (fun acc p =>
        populateVertexData t acc p.1 (p.2.vtxBufferSize * imDrawVertSize)
          (p.2.idxBufferSize * imDrawIdxSize)) s = s
  | [], _, _ => rfl
  | p :: l, s, h => by
    have hp := h p (List.mem_cons_self p l)
    have hv : p.2.vtxBufferSize * imDrawVertSize / imDrawVertSize =
        p.2.vtxBufferSize := by
      simp only [imDrawVertSize]
      omega
    have hi : p.2.idxBufferSize * imDrawIdxSize / 2 = p.2.idxBufferSize := by
      simp only [imDrawIdxSize]
      omega
    have hnoop : populateVertexData t s p.1
        (p.2.vtxBufferSize * imDrawVertSize)
        (p.2.idxBufferSize * imDrawIdxSize) = s :=
      populateVertexData_noop t s p.1 _ _ (by rw [hv]; exact hp.1)
        (by rw [hi]; exact hp.2)
    rw [List.foldl_cons, hnoop]
    exact foldPopulate_noop t l s
      (fun q hq => h q (List.mem_cons_of_mem p hq))

theorem populateAll_noop (t : Bool) (s : BridgeState) (dd : ImDrawData)
    (h : ∀ p ∈ dd.cmdLists.enum,
      p.2.vtxBufferSize ≤ (s.vertex_buffers.getD p.1 ⟨0, 0⟩).capacity ∧
        p.2.idxBufferSize ≤ (s.index_buffers.getD p.1 ⟨0, 0⟩).capacity) :
    populateAll t s dd = s :=
  foldPopulate_noop t dd.cmdLists.enum s h

theorem createBuffers_noop (t : Bool) (s : BridgeState) (n : Nat)
    (h1 : n ≤ s.vertex_buffers.length) (h2 : n ≤ s.index_buffers.length) :
    createBuffers t s n = s := by
  have h1' : ¬ n > s.vertex_buffers.length := by omega
  have h2' : ¬ n > s.index_buffers.length := by omega
  unfold createBuffers createBuffersVertexPhase createBuffersIndexPhase
  rw [if_neg h1', if_neg h2']

theorem capV_eq (s : BridgeState) (j : Nat) :
    capV s j = ((s.vertex_buffers[j]?).getD ⟨0, 0⟩).capacity := by
  unfold capV
  rw [List.getD_eq_getElem?_getD]

theorem capI_eq (s : BridgeState) (j : Nat) :
    capI s j = ((s.index_buffers[j]?).getD ⟨0, 0⟩).capacity := by
  unfold capI
  rw [List.getD_eq_getElem?_getD]

theorem populate_cap (t : Bool) (s : BridgeState) (i vc ic : Nat) :
    (populateVertexData t s i (vc * imDrawVertSize)
        (ic * imDrawIdxSize)).vertex_buffers.length =
        s.vertex_buffers.length ∧
      (populateVertexData t s i (vc * imDrawVertSize)
        (ic * imDrawIdxSize)).index_buffers.length =
        s.index_buffers.length ∧
      (∀ j, j ≠ i →
        capV (populateVertexData t s i (vc * imDrawVertSize)
          (ic * imDrawIdxSize)) j = capV s j ∧
        capI (populateVertexData t s i (vc * imDrawVertSize)
          (ic * imDrawIdxSize)) j = capI s j) ∧
      capV (populateVertexData t s i (vc * imDrawVertSize)
        (ic * imDrawIdxSize)) i ≥ capV s i ∧
      (capV (populateVertexData t s i (vc * imDrawVertSize)
          (ic * imDrawIdxSize)) i ≠ capV s i →
        vc > capV s i ∧
          capV (populateVertexData t s i (vc * imDrawVertSize)
            (ic * imDrawIdxSize)) i = vc) ∧
      (i < s.vertex_buffers.length →
        capV (populateVertexData t s i (vc * imDrawVertSize)
          (ic * imDrawIdxSize)) i ≥ vc) ∧
      capI (populateVertexData t s i (vc * imDrawVertSize)
        (ic * imDrawIdxSize)) i ≥ capI s i ∧
      (capI (populateVertexData t s i (vc * imDrawVertSize)
          (ic * imDrawIdxSize)) i ≠ capI s i →
        ic > capI s i ∧
          capI (populateVertexData t s i (vc * imDrawVertSize)
            (ic * imDrawIdxSize)) i = ic) ∧
      (i < s.index_buffers.length →
        capI (populateVertexData t s i (vc * imDrawVertSize)
          (ic * imDrawIdxSize)) i ≥ ic) := by
  obtain ⟨_, _, p3, p4⟩ := populateVertexData_spec t s i
    (vc * imDrawVertSize) (ic * imDrawIdxSize)
  have hvq : vc * imDrawVertSize / imDrawVertSize = vc := by
    simp only [imDrawVertSize]
    omega
  have hiq : ic * imDrawIdxSize / 2 = ic := by
    simp only [imDrawIdxSize]
    omega
  rw [hvq] at p3
  rw [hiq] at p4
  have hlenv : (populateVertexData t s i (vc * imDrawVertSize)
      (ic * imDrawIdxSize)).vertex_buffers.length =
      s.vertex_buffers.length := by
    rw [p3]
    split
    · rw [List.length_modify]
    · rfl
  have hleni : (populateVertexData t s i (vc * imDrawVertSize)
      (ic * imDrawIdxSize)).index_buffers.length =
      s.index_buffers.length := by
    rw [p4]
    split
    · rw [List.length_modify]
    · rfl
  have hne : ∀ j, j ≠ i →
      capV (populateVertexData t s i (vc * imDrawVertSize)
        (ic * imDrawIdxSize)) j = capV s j ∧
      capI (populateVertexData t s i (vc * imDrawVertSize)
        (ic * imDrawIdxSize)) j = capI s j := by
    intro j hj
    constructor
    · rw [capV_eq, capV_eq, p3]
      split
      · rw [List.getElem?_modify]
        have : ¬ i = j := fun hc => hj hc.symm
        simp only [this, if_false]
        cases s.vertex_buffers[j]? <;> rfl
      · rfl
    · rw [capI_eq, capI_eq, p4]
      split
      · rw [List.getElem?_modify]
        have : ¬ i = j := fun hc => hj hc.symm
        simp only [this, if_false]
        cases s.index_buffers[j]? <;> rfl
      · rfl
  have hselfV : (¬ vc > capV s i →
      capV (populateVertexData t s i (vc * imDrawVertSize)
        (ic * imDrawIdxSize)) i = capV s i) ∧
      (vc > capV s i → i < s.vertex_buffers.length →
        capV (populateVertexData t s i (vc * imDrawVertSize)
          (ic * imDrawIdxSize)) i = vc) ∧
      (vc > capV s i → s.vertex_buffers.length ≤ i →
        capV (populateVertexData t s i (vc * imDrawVertSize)
          (ic * imDrawIdxSize)) i = capV s i) := by
    refine ⟨?_, ?_, ?_⟩
    · intro hc
      rw [capV_eq, capV_eq, p3, if_neg (by unfold capV at hc; omega)]
    · intro hc hlt
      rw [capV_eq, p3, if_pos (by unfold capV at hc; omega),
        List.getElem?_modify, List.getElem?_eq_getElem hlt]
      simp
    · intro hc hge
      rw [capV_eq, capV_eq, p3, if_pos (by unfold capV at hc; omega),
        List.getElem?_modify, List.getElem?_eq_none hge]
      simp
  have hselfI : (¬ ic > capI s i →
      capI (populateVertexData t s i (vc * imDrawVertSize)
        (ic * imDrawIdxSize)) i = capI s i) ∧
      (ic > capI s i → i < s.index_buffers.length →
        capI (populateVertexData t s i (vc * imDrawVertSize)
          (ic * imDrawIdxSize)) i = ic) ∧
      (ic > capI s i → s.index_buffers.length ≤ i →
        capI (populateVertexData t s i (vc * imDrawVertSize)
          (ic * imDrawIdxSize)) i = capI s i) := by
    refine ⟨?_, ?_, ?_⟩
    · intro hc
      rw [capI_eq, capI_eq, p4, if_neg (by unfold capI at hc; omega)]
    · intro hc hlt
      rw [capI_eq, p4, if_pos (by unfold capI at hc; omega),
        List.getElem?_modify, List.getElem?_eq_getElem hlt]
      simp
    · intro hc hge
      rw [capI_eq, capI_eq, p4, if_pos (by unfold capI at hc; omega),
        List.getElem?_modify, List.getElem?_eq_none hge]
      simp
  obtain ⟨v1, v2, v3⟩ := hselfV
  obtain ⟨w1, w2, w3⟩ := hselfI
  refine ⟨hlenv, hleni, hne, ?_, ?_, ?_, ?_, ?_, ?_⟩
  · by_cases hc : vc > capV s i
    · by_cases hlt : i < s.vertex_buffers.length
      · rw [v2 hc hlt]
        omega
      · rw [v3 hc (by omega)]
    · rw [v1 hc]
  · intro hd
    by_cases hc : vc > capV s i
    · by_cases hlt : i < s.vertex_buffers.length
      · exact ⟨hc, v2 hc hlt⟩
      · exact absurd (v3 hc (by omega)) hd
    · exact absurd (v1 hc) hd
  · intro hlt
    by_cases hc : vc > capV s i
    · rw [v2 hc hlt]
    · rw [v1 hc]
      omega
  · by_cases hc : ic > capI s i
    · by_cases hlt : i < s.index_buffers.length
      · rw [w2 hc hlt]
        omega
      · rw [w3 hc (by omega)]
    · rw [w1 hc]
  · intro hd
    by_cases hc : ic > capI s i
    · by_cases hlt : i < s.index_buffers.length
      · exact ⟨hc, w2 hc hlt⟩
      · exact absurd (w3 hc (by omega)) hd
    · exact absurd (w1 hc) hd
  · intro hlt
    by_cases hc : ic > capI s i
    · rw [w2 hc hlt]
    · rw [w1 hc]
      omega

theorem foldPopulate_cap (t : Bool) :
    ∀ (lists : List DrawList) (k : Nat) (s : BridgeState),
    ((List.enumFrom k lists).foldl
        (fun acc p =>
          populateVertexData t acc p.1 (p.2.vtxBufferSize * imDrawVertSize)
            (p.2.idxBufferSize * imDrawIdxSize)) s).vertex_buffers.length =
        s.vertex_buffers.length ∧
      ((List.enumFrom k lists).foldl
        (fun acc p =>
          populateVertexData t acc p.1 (p.2.vtxBufferSize * imDrawVertSize)
            (p.2.idxBufferSize * imDrawIdxSize)) s).index_buffers.length =
        s.index_buffers.length ∧
      (∀ j,
        capV ((List.enumFrom k lists).foldl
          (fun acc p =>
            populateVertexData t acc p.1 (p.2.vtxBufferSize * imDrawVertSize)
              (p.2.idxBufferSize * imDrawIdxSize)) s) j ≥ capV s j ∧
        capI ((List.enumFrom k lists).foldl
          (fun acc p =>
            populateVertexData t acc p.1 (p.2.vtxBufferSize * imDrawVertSize)
              (p.2.idxBufferSize * imDrawIdxSize)) s) j ≥ capI s j) ∧
      (∀ j,
        capV ((List.enumFrom k lists).foldl
          (fun acc p =>
            populateVertexData t acc p.1 (p.2.vtxBufferSize * imDrawVertSize)
              (p.2.idxBufferSize * imDrawIdxSize)) s) j ≠ capV s j →
        ∃ l, k ≤ j ∧ lists[j - k]? = some l ∧ l.vtxBufferSize > capV s j ∧
          capV ((List.enumFrom k lists).foldl
            (fun acc p =>
              populateVertexData t acc p.1
                (p.2.vtxBufferSize * imDrawVertSize)
                (p.2.idxBufferSize * imDrawIdxSize)) s) j =
            l.vtxBufferSize) ∧
      (∀ j,
        capI ((List.enumFrom k lists).foldl
          (fun acc p =>
            populateVertexData t acc p.1 (p.2.vtxBufferSize * imDrawVertSize)
              (p.2.idxBufferSize * imDrawIdxSize)) s) j ≠ capI s j →
        ∃ l, k ≤ j ∧ lists[j - k]? = some l ∧ l.idxBufferSize > capI s j ∧
          capI ((List.enumFrom k lists).foldl
            (fun acc p =>
              populateVertexData t acc p.1
                (p.2.vtxBufferSize * imDrawVertSize)
                (p.2.idxBufferSize * imDrawIdxSize)) s) j =
            l.idxBufferSize) ∧
      (∀ j l0, k ≤ j → lists[j - k]? = some l0 →
        (j < s.vertex_buffers.length →
          capV ((List.enumFrom k lists).foldl
            (fun acc p =>
              populateVertexData t acc p.1
                (p.2.vtxBufferSize * imDrawVertSize)
                (p.2.idxBufferSize * imDrawIdxSize)) s) j ≥
            l0.vtxBufferSize) ∧
        (j < s.index_buffers.length →
          capI ((List.enumFrom k lists).foldl
            (fun acc p =>
              populateVertexData t acc p.1
                (p.2.vtxBufferSize * imDrawVertSize)
                (p.2.idxBufferSize * imDrawIdxSize)) s) j ≥
            l0.idxBufferSize))
  | [], k, s => by
    refine ⟨rfl, rfl, fun j => ⟨Nat.le_refl _, Nat.le_refl _⟩,
      fun j hj => absurd rfl hj, fun j hj => absurd rfl hj, ?_⟩
    intro j l0 _ hl
    rw [List.getElem?_nil] at hl
    exact Option.noConfusion hl
  | l :: rest, k, s => by
    have hcons : List.enumFrom k (l :: rest) =
        (k, l) :: List.enumFrom (k + 1) rest := rfl
    rw [hcons, List.foldl_cons]
    obtain ⟨q1, q2, q3, q4, q5, q6, q7, q8, q9⟩ :=
      populate_cap t s k l.vtxBufferSize l.idxBufferSize
    set s' := populateVertexData t s k (l.vtxBufferSize * imDrawVertSize)
      (l.idxBufferSize * imDrawIdxSize) with hs'
    obtain ⟨i1, i2, i3, i4, i5, i6⟩ := foldPopulate_cap t rest (k + 1) s'
    refine ⟨by rw [i1, q1], by rw [i2, q2], ?_, ?_, ?_, ?_⟩
    · intro j
      by_cases hj : j = k
      · subst hj
        exact ⟨Nat.le_trans q4 (i3 j).1, Nat.le_trans q7 (i3 j).2⟩
      · obtain ⟨e1, e2⟩ := q3 j hj
        exact ⟨e1 ▸ (i3 j).1, e2 ▸ (i3 j).2⟩
    · intro j hj
      by_cases hchg : capV ((List.enumFrom (k + 1) rest).foldl
          (fun acc p =>
            populateVertexData t acc p.1 (p.2.vtxBufferSize * imDrawVertSize)
              (p.2.idxBufferSize * imDrawIdxSize)) s') j ≠ capV s' j
      · obtain ⟨l', hk', hidx', hgt', heq'⟩ := i4 j hchg
        have hjk : j ≠ k := by omega
        have hcap : capV s' j = capV s j := (q3 j hjk).1
        have harith : j - k = (j - (k + 1)) + 1 := by omega
        refine ⟨l', by omega, ?_, by rw [hcap] at hgt'; exact hgt',
          by rw [heq']⟩
        rw [harith, List.getElem?_cons_succ]
        exact hidx'
      · push_neg at hchg
        rw [hchg] at hj ⊢
        by_cases hjk : j = k
        · subst hjk
          obtain ⟨hgt, heq⟩ := q5 hj
          exact ⟨l, Nat.le_refl j, by simp, hgt, heq⟩
        · exact absurd (q3 j hjk).1 hj
    · intro j hj
      by_cases hchg : capI ((List.enumFrom (k + 1) rest).foldl
          (fun acc p =>
            populateVertexData t acc p.1 (p.2.vtxBufferSize * imDrawVertSize)
              (p.2.idxBufferSize * imDrawIdxSize)) s') j ≠ capI s' j
      · obtain ⟨l', hk', hidx', hgt', heq'⟩ := i5 j hchg
        have hjk : j ≠ k := by omega
        have hcap : capI s' j = capI s j := (q3 j hjk).2
        have harith : j - k = (j - (k + 1)) + 1 := by omega
        refine ⟨l', by omega, ?_, by rw [hcap] at hgt'; exact hgt',
          by rw [heq']⟩
        rw [harith, List.getElem?_cons_succ]
        exact hidx'
      · push_neg at hchg
        rw [hchg] at hj ⊢
        by_cases hjk : j = k
        · subst hjk
          obtain ⟨hgt, heq⟩ := q8 hj
          exact ⟨l, Nat.le_refl j, by simp, hgt, heq⟩
        · exact absurd (q3 j hjk).2 hj
    · intro j l0 hk hl
      by_cases hjk : j = k
      · subst hjk
        have : (l :: rest)[j - j]? = some l := by simp
        rw [this] at hl
        obtain rfl : l0 = l := by
          injection hl with h
          exact h.symm
        constructor
        · intro hlt
          exact Nat.le_trans (q6 hlt) (i3 j).1
        · intro hlt
          exact Nat.le_trans (q9 hlt) (i3 j).2
      · have harith : j - k = (j - (k + 1)) + 1 := by omega
        rw [harith, List.getElem?_cons_succ] at hl
        obtain ⟨d1, d2⟩ := i6 j l0 (by omega) hl
        constructor
        · intro hlt
          exact d1 (by rw [q1]; exact hlt)
        · intro hlt
          exact d2 (by rw [q2]; exact hlt)

theorem createBuffers_cap (t : Bool) (s : BridgeState) (n : Nat) :
    s.vertex_buffers.length ≤ (createBuffers t s n).vertex_buffers.length ∧
      s.index_buffers.length ≤ (createBuffers t s n).index_buffers.length ∧
      (0 < n → n ≤ (createBuffers t s n).vertex_buffers.length) ∧
      (0 < n → n ≤ (createBuffers t s n).index_buffers.length) ∧
      (∀ j, j < s.vertex_buffers.length →
        capV (createBuffers t s n) j = capV s j) ∧
      (∀ j, j < s.index_buffers.length →
        capI (createBuffers t s n) j = capI s j) ∧
      (∀ j, capV (createBuffers t s n) j ≥ capV s j) ∧
      (∀ j, capI (createBuffers t s n) j ≥ capI s j) := by
  obtain ⟨_, _, c3, c4, c5, c6⟩ := createBuffers_spec t s n
  have hvlen : (createBuffers t s n).vertex_buffers.length =
      max s.vertex_buffers.length n := by
    by_cases h : s.vertex_buffers.length < n
    · rw [(c4 h).1]
      omega
    · rw [c3 (by omega)]
      omega
  have hilen : (createBuffers t s n).index_buffers.length =
      max s.index_buffers.length n := by
    by_cases h : s.index_buffers.length < n
    · rw [(c6 h).1]
      omega
    · rw [c5 (by omega)]
      omega
  have hvput : ∀ j, j < s.vertex_buffers.length →
      capV (createBuffers t s n) j = capV s j := by
    intro j hj
    by_cases h : s.vertex_buffers.length < n
    · rw [capV_eq, capV_eq, (c4 h).2.1 j hj]
    · rw [capV_eq, capV_eq, c3 (by omega)]
  have hiput : ∀ j, j < s.index_buffers.length →
      capI (createBuffers t s n) j = capI s j := by
    intro j hj
    by_cases h : s.index_buffers.length < n
    · rw [capI_eq, capI_eq, (c6 h).2.1 j hj]
    · rw [capI_eq, capI_eq, c5 (by omega)]
  refine ⟨by omega, by omega, fun _ => by omega, fun _ => by omega,
    hvput, hiput, ?_, ?_⟩
  · intro j
    by_cases hj : j < s.vertex_buffers.length
    · rw [hvput j hj]
    · have : s.vertex_buffers[j]? = none := List.getElem?_eq_none (by omega)
      have hz : capV s j = 0 := by
        rw [capV_eq, this]
        rfl
      omega
  · intro j
    by_cases hj : j < s.index_buffers.length
    · rw [hiput j hj]
    · have : s.index_buffers[j]? = none := List.getElem?_eq_none (by omega)
      have hz : capI s j = 0 := by
        rw [capI_eq, this]
        rfl
      omega

theorem update_cap (t : Bool) (fbw fbh : Int) (dd : ImDrawData)
    (s : BridgeState) :
    (∀ j, capV (update t fbw fbh dd s) j ≥ capV s j ∧
      capI (update t fbw fbh dd s) j ≥ capI s j) ∧
      s.vertex_buffers.length ≤
        (update t fbw fbh dd s).vertex_buffers.length ∧
      s.index_buffers.length ≤
        (update t fbw fbh dd s).index_buffers.length ∧
      (∀ j, j < s.vertex_buffers.length →
        capV (update t fbw fbh dd s) j ≠ capV s j →
        ¬ (fbw = 0 ∨ fbh = 0) ∧
          ∃ l, dd.cmdLists[j]? = some l ∧ l.vtxBufferSize > capV s j ∧
            capV (update t fbw fbh dd s) j = l.vtxBufferSize) ∧
      (∀ j, j < s.index_buffers.length →
        capI (update t fbw fbh dd s) j ≠ capI s j →
        ¬ (fbw = 0 ∨ fbh = 0) ∧
          ∃ l, dd.cmdLists[j]? = some l ∧ l.idxBufferSize > capI s j ∧
            capI (update t fbw fbh dd s) j = l.idxBufferSize) ∧
      (¬ (fbw = 0 ∨ fbh = 0) → ∀ j l, dd.cmdLists[j]? = some l →
        capV (update t fbw fbh dd s) j ≥ l.vtxBufferSize ∧
          capI (update t fbw fbh dd s) j ≥ l.idxBufferSize) := by
  by_cases hz : fbw = 0 ∨ fbh = 0
  · rw [update_skip_eq t fbw fbh dd s hz]
    have hv : ∀ j, capV { s with has_synced := false } j = capV s j :=
      fun j => rfl
    have hi : ∀ j, capI { s with has_synced := false } j = capI s j :=
      fun j => rfl
    refine ⟨fun j => ⟨Nat.le_of_eq (hv j), Nat.le_of_eq (hi j)⟩,
      Nat.le_refl _, Nat.le_refl _,
      fun j _ hd => absurd (hv j) hd,
      fun j _ hd => absurd (hi j) hd,
      fun hnz => absurd hz hnz⟩
  · rw [update_eq t fbw fbh dd s hz]
    set s1 : BridgeState := { s with has_synced := false } with hs1
    set s2 := createBuffers t s1 dd.cmdLists.length with hs2
    set s3 := (if (frameKeys fbh dd).length > s2.material_instances then
        { s2 with material_instances := (frameKeys fbh dd).length }
      else s2) with hs3
    have h3v : s3.vertex_buffers = s2.vertex_buffers := by
      rw [hs3]
      split <;> rfl
    have h3i : s3.index_buffers = s2.index_buffers := by
      rw [hs3]
      split <;> rfl
    have h3cv : ∀ j, capV s3 j = capV s2 j := by
      intro j
      unfold capV
      rw [h3v]
    have h3ci : ∀ j, capI s3 j = capI s2 j := by
      intro j
      unfold capI
      rw [h3i]
    obtain ⟨b1, b2, b3, b4, b5, b6, b7, b8⟩ :=
      createBuffers_cap t s1 dd.cmdLists.length
    have henum : dd.cmdLists.enum = List.enumFrom 0 dd.cmdLists := rfl
    have hpa : populateAll t s3 dd =
        (List.enumFrom 0 dd.cmdLists).foldl
          (fun acc p =>
            populateVertexData t acc p.1 (p.2.vtxBufferSize * imDrawVertSize)
              (p.2.idxBufferSize * imDrawIdxSize)) s3 := by
      unfold populateAll
      rw [henum]
    obtain ⟨f1, f2, f3, f4, f5, f6⟩ := foldPopulate_cap t dd.cmdLists 0 s3
    rw [← hpa] at f1 f2 f3 f4 f5 f6
    have hfinv : ∀ j,
        capV ({ populateAll t s3 dd with
          renderable := if dd.cmdLists.length > 0 then
            some ⟨countPrims dd, emitPrims fbh (frameKeys fbh dd) dd⟩
          else none } : BridgeState) j = capV (populateAll t s3 dd) j :=
      fun j => rfl
    have hfini : ∀ j,
        capI ({ populateAll t s3 dd with
          renderable := if dd.cmdLists.length > 0 then
            some ⟨countPrims dd, emitPrims fbh (frameKeys fbh dd) dd⟩
          else none } : BridgeState) j = capI (populateAll t s3 dd) j :=
      fun j => rfl
    have hs1v : ∀ j, capV s1 j = capV s j := fun j => rfl
    have hs1i : ∀ j, capI s1 j = capI s j := fun j => rfl
    refine ⟨?_, ?_, ?_, ?_, ?_, ?_⟩
    · intro j
      constructor
      · rw [hfinv j]
        calc capV s j = capV s1 j := (hs1v j).symm
          _ ≤ capV s2 j := b7 j
          _ = capV s3 j := (h3cv j).symm
          _ ≤ capV (populateAll t s3 dd) j := (f3 j).1
      · rw [hfini j]
        calc capI s j = capI s1 j := (hs1i j).symm
          _ ≤ capI s2 j := b8 j
          _ = capI s3 j := (h3ci j).symm
          _ ≤ capI (populateAll t s3 dd) j := (f3 j).2
    · show s.vertex_buffers.length ≤
        (populateAll t s3 dd).vertex_buffers.length
      rw [f1, h3v]
      exact b1
    · show s.index_buffers.length ≤
        (populateAll t s3 dd).index_buffers.length
      rw [f2, h3i]
      exact b2
    · intro j hj hd
      rw [hfinv j] at hd ⊢
      have hcv : capV s3 j = capV s j := by
        rw [h3cv j, ← hs1v j]
        exact b5 j hj
      have hd' : capV (populateAll t s3 dd) j ≠ capV s3 j := by
        rw [hcv]
        exact hd
      obtain ⟨l, _, hl, hgt, heq⟩ := f4 j hd'
      rw [Nat.sub_zero] at hl
      exact ⟨hz, l, hl, by rw [hcv] at hgt; exact hgt, heq⟩
    · intro j hj hd
      rw [hfini j] at hd ⊢
      have hci : capI s3 j = capI s j := by
        rw [h3ci j, ← hs1i j]
        exact b6 j hj
      have hd' : capI (populateAll t s3 dd) j ≠ capI s3 j := by
        rw [hci]
        exact hd
      obtain ⟨l, _, hl, hgt, heq⟩ := f5 j hd'
      rw [Nat.sub_zero] at hl
      exact ⟨hz, l, hl, by rw [hci] at hgt; exact hgt, heq⟩
    · intro _ j l hl
      have hjlen : j < dd.cmdLists.length := by
        rcases List.getElem?_eq_some.mp hl with ⟨h, _⟩
        exact h
      have hjv : j < s3.vertex_buffers.length := by
        rw [h3v, hs2]
        have := b3 (by omega)
        omega
      have hji : j < s3.index_buffers.length := by
        rw [h3i, hs2]
        have := b4 (by omega)
        omega
      obtain ⟨d1, d2⟩ := f6 j l (Nat.zero_le j) (by rw [Nat.sub_zero]; exact hl)
      exact ⟨by rw [hfinv j]; exact d1 hjv, by rw [hfini j]; exact d2 hji⟩

theorem runFrames_cap_mono (t : Bool) :
    ∀ (frames : List Frame) (s : BridgeState) (j : Nat),
    capV (runFrames t frames s) j ≥ capV s j ∧
      capI (runFrames t frames s) j ≥ capI s j
  | [], s, j => ⟨Nat.le_refl _, Nat.le_refl _⟩
  | f :: rest, s, j => by
    have hstep := (update_cap t f.fbwidth f.fbheight f.imguiData s).1 j
    have hrec := runFrames_cap_mono t rest
      (update t f.fbwidth f.fbheight f.imguiData s) j
    have hrun : runFrames t (f :: rest) s =
        runFrames t rest (update t f.fbwidth f.fbheight f.imguiData s) := rfl
    rw [hrun]
    exact ⟨Nat.le_trans hstep.1 hrec.1, Nat.le_trans hstep.2 hrec.2⟩

theorem runFrames_cap_request (t : Bool) :
    ∀ (frames : List Frame) (s : BridgeState) (j : Nat) (f : Frame),
    f ∈ frames → ¬ (f.fbwidth = 0 ∨ f.fbheight = 0) →
    ∀ l, f.imguiData.cmdLists[j]? = some l →
    capV (runFrames t frames s) j ≥ l.vtxBufferSize ∧
      capI (runFrames t frames s) j ≥ l.idxBufferSize
  | [], _, _, f, hf, _, _, _ => absurd hf (List.not_mem_nil f)
  | f0 :: rest, s, j, f, hf, hnz, l, hl => by
    have hrun : runFrames t (f0 :: rest) s =
        runFrames t rest (update t f0.fbwidth f0.fbheight f0.imguiData s) :=
      rfl
    rw [hrun]
    rcases List.mem_cons.mp hf with heq | hmem
    · subst heq
      have hsat := (update_cap t f.fbwidth f.fbheight f.imguiData s).2.2.2.2.2
        hnz j l hl
      have hmono := runFrames_cap_mono t rest
        (update t f.fbwidth f.fbheight f.imguiData s) j
      exact ⟨Nat.le_trans hsat.1 hmono.1, Nat.le_trans hsat.2 hmono.2⟩
    · exact runFrames_cap_request t rest
        (update t f0.fbwidth f0.fbheight f0.imguiData s) j f hmem hnz l hl

/-! ## Claim C4 -/

/-- Claim C4 (amended): for every clip rectangle and framebuffer height the
packed ScissorKey is the 64-bit value holding the 4-tuple
(left = clipRect.x, bottom = fbheight - clipRect.w,
width = clipRect.z - clipRect.x, height = clipRect.w - clipRect.y) at bit
offsets 0, 16, 32 and 48 — with each component reduced modulo 2^16 by the
truncating `uint16_t` conversion (not clamped/saturated); components already
inside [0, 65535] are held exactly; and any two clip rectangles equal as
integer AABBs after framebuffer-scale transformation produce equal keys and
are therefore assigned the same material-pool slot within a frame. -/
theorem scissorKey_wrapped_packing (fbheight : Int) (r r' : ClipRect)
    (keys : List Nat) (hsame : r = r') :
    makeScissorKey fbheight r < 2 ^ 64 ∧
      makeScissorKey fbheight r % 2 ^ 16 = toU16 r.x ∧
      makeScissorKey fbheight r / 2 ^ 16 % 2 ^ 16 = toU16 (fbheight - r.w) ∧
      makeScissorKey fbheight r / 2 ^ 32 % 2 ^ 16 = toU16 (r.z - r.x) ∧
      makeScissorKey fbheight r / 2 ^ 48 = toU16 (r.w - r.y) ∧
      (0 ≤ r.x → r.x < 65536 →
        ((makeScissorKey fbheight r % 2 ^ 16 : Nat) : Int) = r.x) ∧
      (0 ≤ fbheight - r.w → fbheight - r.w < 65536 →
        ((makeScissorKey fbheight r / 2 ^ 16 % 2 ^ 16 : Nat) : Int) =
          fbheight - r.w) ∧
      (0 ≤ r.z - r.x → r.z - r.x < 65536 →
        ((makeScissorKey fbheight r / 2 ^ 32 % 2 ^ 16 : Nat) : Int) =
          r.z - r.x) ∧
      (0 ≤ r.w - r.y → r.w - r.y < 65536 →
        ((makeScissorKey fbheight r / 2 ^ 48 : Nat) : Int) = r.w - r.y) ∧
      makeScissorKey fbheight r = makeScissorKey fbheight r' ∧
      keys.indexOf (makeScissorKey fbheight r) =
        keys.indexOf (makeScissorKey fbheight r') := by
  obtain ⟨h1, h2, h3, h4⟩ := makeScissorKey_fields fbheight r
  subst hsame
  refine ⟨makeScissorKey_lt_two_pow_64 fbheight r, h1, h2, h3, h4,
    ?_, ?_, ?_, ?_, rfl, rfl⟩
  · intro ha hb
    rw [h1]
    exact toU16_of_mem_range _ ha hb
  · intro ha hb
    rw [h2]
    exact toU16_of_mem_range _ ha hb
  · intro ha hb
    rw [h3]
    exact toU16_of_mem_range _ ha hb
  · intro ha hb
    rw [h4]
    exact toU16_of_mem_range _ ha hb

/-- Witness for C4 at fbheight 480, rectangle (10, 20, 110, 220). -/
theorem scissorKey_wrapped_packing_witness :
    makeScissorKey 480 ⟨10, 20, 110, 220⟩ < 2 ^ 64 ∧
      makeScissorKey 480 ⟨10, 20, 110, 220⟩ % 2 ^ 16 = toU16 10 ∧
      makeScissorKey 480 ⟨10, 20, 110, 220⟩ / 2 ^ 16 % 2 ^ 16 =
        toU16 (480 - 220) ∧
      makeScissorKey 480 ⟨10, 20, 110, 220⟩ / 2 ^ 32 % 2 ^ 16 =
        toU16 (110 - 10) ∧
      makeScissorKey 480 ⟨10, 20, 110, 220⟩ / 2 ^ 48 = toU16 (220 - 20) ∧
      (0 ≤ (10 : Int) → (10 : Int) < 65536 →
        ((makeScissorKey 480 ⟨10, 20, 110, 220⟩ % 2 ^ 16 : Nat) : Int) = 10) ∧
      (0 ≤ (480 : Int) - 220 → (480 : Int) - 220 < 65536 →
        ((makeScissorKey 480 ⟨10, 20, 110, 220⟩ / 2 ^ 16 % 2 ^ 16 : Nat) : Int) =
          480 - 220) ∧
      (0 ≤ (110 : Int) - 10 → (110 : Int) - 10 < 65536 →
        ((makeScissorKey 480 ⟨10, 20, 110, 220⟩ / 2 ^ 32 % 2 ^ 16 : Nat) : Int) =
          110 - 10) ∧
      (0 ≤ (220 : Int) - 20 → (220 : Int) - 20 < 65536 →
        ((makeScissorKey 480 ⟨10, 20, 110, 220⟩ / 2 ^ 48 : Nat) : Int) =
          220 - 20) ∧
      makeScissorKey 480 ⟨10, 20, 110, 220⟩ =
        makeScissorKey 480 ⟨10, 20, 110, 220⟩ ∧
      [makeScissorKey 480 ⟨10, 20, 110, 220⟩].indexOf
          (makeScissorKey 480 ⟨10, 20, 110, 220⟩) =
        [makeScissorKey 480 ⟨10, 20, 110, 220⟩].indexOf
          (makeScissorKey 480 ⟨10, 20, 110, 220⟩) :=
  scissorKey_wrapped_packing 480 ⟨10, 20, 110, 220⟩ ⟨10, 20, 110, 220⟩
    [makeScissorKey 480 ⟨10, 20, 110, 220⟩] rfl

/-- Claim C4 counterexample: a clip rectangle of width 65536 (x = 0,
z = 65536).  The claim's clamping would put 65535 in the width field; the
code's truncating conversion wraps it to 0, so the packed key differs from
the clamped packing. -/
theorem scissorKey_clamp_counterexample :
    makeScissorKey 100 ⟨0, 0, 65536, 0⟩ / 2 ^ 32 % 2 ^ 16 = 0 ∧
      makeScissorKeyClamped 100 ⟨0, 0, 65536, 0⟩ / 2 ^ 32 % 2 ^ 16 = 65535 ∧
      makeScissorKey 100 ⟨0, 0, 65536, 0⟩ ≠
        makeScissorKeyClamped 100 ⟨0, 0, 65536, 0⟩ := by
  refine ⟨by decide, by decide, by decide⟩

/-! ## Claim C5 -/

/-- Claim C5 (amended): for every update call in which the scaled framebuffer
width or height is zero, the call returns immediately without creating or
destroying any buffer or material instance and without emitting any
primitive; every component of the bridge state is left unchanged except the
`has_synced_` flag, which `update` unconditionally clears before the check. -/
theorem update_zero_area_skips (threading : Bool) (fbwidth fbheight : Int)
    (imguiData : ImDrawData) (s : BridgeState)
    (h : fbwidth = 0 ∨ fbheight = 0) :
    update threading fbwidth fbheight imguiData s =
      { s with has_synced := false } := by
  unfold update
  rw [if_pos h]

/-- Witness for C5: a zero-width frame on a populated state. -/
theorem update_zero_area_skips_witness :
    update true 0 100 ⟨[]⟩
        ⟨[⟨1000, 1⟩], [⟨5000, 1⟩], 2, true, none, 3⟩ =
      { vertex_buffers := [⟨1000, 1⟩], index_buffers := [⟨5000, 1⟩],
        material_instances := 2, has_synced := false, renderable := none,
        fence_waits := 3 } :=
  update_zero_area_skips true 0 100 ⟨[]⟩
    ⟨[⟨1000, 1⟩], [⟨5000, 1⟩], 2, true, none, 3⟩ (Or.inl rfl)

/-- Claim C5 counterexample: the claim's "leaves all bridge state unchanged
from before the call" fails when `has_synced_` was `true` before the call —
`update` clears the flag before the zero-area check, so the state after the
skipped frame differs from the state before it. -/
theorem update_zero_area_sync_flag_counterexample :
    update true 0 100 ⟨[]⟩ ⟨[], [], 0, true, none, 0⟩ ≠
      ⟨[], [], 0, true, none, 0⟩ := by
  decide

/-! ## Claims C8 and C10 -/

/-- Claim C8: for every Combobox, `SetSelectedIndex(i)` with `i` outside
[0, itemCount) leaves the state (hence `GetSelectedIndex()`) unchanged;
`SetSelectedValue(v)` where `v` equals no item's string leaves the state
unchanged; and neither setter ever performs any `on_value_changed_`
invocation, whatever its argument. -/
theorem combobox_setters_silent (c : Combobox) (i : Int) (v : String)
    (hout : ¬ (0 ≤ i ∧ i < (c.items.length : Int)))
    (hmiss : ∀ item ∈ c.items, item ≠ v) :
    (c.setSelectedIndex i).1 = c ∧
      (c.setSelectedIndex i).1.getSelectedIndex = c.getSelectedIndex ∧
      (c.setSelectedValue v).1 = c ∧
      (c.setSelectedValue v).1.getSelectedIndex = c.getSelectedIndex ∧
      (∀ j : Int, (c.setSelectedIndex j).2 = []) ∧
      (∀ w : String, (c.setSelectedValue w).2 = []) := by
  have h1 : (c.setSelectedIndex i).1 = c := by
    unfold Combobox.setSelectedIndex
    rw [if_neg hout]
  have h2 : (c.setSelectedValue v).1 = c := by
    unfold Combobox.setSelectedValue
    rw [Combobox.findIdx?_eq_none_of_all_ne c.items v hmiss]
  exact ⟨h1, by rw [h1], h2, by rw [h2],
    fun j => Combobox.setSelectedIndex_events c j,
    fun w => Combobox.setSelectedValue_events c w⟩

/-- Witness for C8: two-item Combobox, out-of-range index 5, absent value. -/
theorem combobox_setters_silent_witness :
    ((⟨["cat", "dog"], 1⟩ : Combobox).setSelectedIndex 5).1 =
        (⟨["cat", "dog"], 1⟩ : Combobox) ∧
      ((⟨["cat", "dog"], 1⟩ : Combobox).setSelectedIndex 5).1.getSelectedIndex =
        (⟨["cat", "dog"], 1⟩ : Combobox).getSelectedIndex ∧
      ((⟨["cat", "dog"], 1⟩ : Combobox).setSelectedValue "bird").1 =
        (⟨["cat", "dog"], 1⟩ : Combobox) ∧
      ((⟨["cat", "dog"], 1⟩ : Combobox).setSelectedValue "bird").1.getSelectedIndex =
        (⟨["cat", "dog"], 1⟩ : Combobox).getSelectedIndex ∧
      (∀ j : Int, ((⟨["cat", "dog"], 1⟩ : Combobox).setSelectedIndex j).2 = []) ∧
      (∀ w : String, ((⟨["cat", "dog"], 1⟩ : Combobox).setSelectedValue w).2 = []) :=
  combobox_setters_silent ⟨["cat", "dog"], 1⟩ 5 "bird" (by decide) (by decide)

/-- Claim C10: whenever the current selected index lies outside
[0, itemCount) — e.g. on an empty item list or right after `ClearItems` —
`GetSelectedValue()` returns the empty string; the vector access is guarded
by that range check. -/
theorem combobox_getSelectedValue_guarded (c : Combobox)
    (h : ¬ (0 ≤ c.current_index ∧ c.current_index < (c.items.length : Int))) :
    c.getSelectedValue = "" := by
  unfold Combobox.getSelectedValue
  rw [if_neg h]

/-- Witness for C10: the state right after `ClearItems`. -/
theorem combobox_getSelectedValue_guarded_witness :
    ((⟨["cat"], 0⟩ : Combobox).clearItems).getSelectedValue = "" :=
  combobox_getSelectedValue_guarded ((⟨["cat"], 0⟩ : Combobox).clearItems)
    (by decide)

theorem elemSumBefore_cons_succ (c : DrawCmd) (rest : List DrawCmd)
    (j : Nat) :
    elemSumBefore (c :: rest) (j + 1) = c.elemCount + elemSumBefore rest j := by
  unfold elemSumBefore
  rw [List.take_succ_cons, List.map_cons, List.sum_cons]

theorem emitCmds_eq_enumFrom (fbheight : Int) (keys : List Nat)
    (bufferIndex : Nat) :
    ∀ (cmds : List DrawCmd) (k off : Nat),
    emitCmds fbheight keys bufferIndex cmds off =
      ((cmds.enumFrom k).filter (fun p => !p.2.hasUserCallback)).map
        (fun p =>
          { bufferIndex := bufferIndex,
            indexOffset := off + elemSumBefore cmds (p.1 - k),
            elemCount := p.2.elemCount,
            materialIndex :=
              keys.indexOf (makeScissorKey fbheight p.2.clipRect) })
  | [], k, off => rfl
  | c :: rest, k, off => by
    have hunfold : emitCmds fbheight keys bufferIndex (c :: rest) off =
        if c.hasUserCallback then
          emitCmds fbheight keys bufferIndex rest (off + c.elemCount)
        else
          { bufferIndex := bufferIndex, indexOffset := off,
            elemCount := c.elemCount,
            materialIndex :=
              keys.indexOf (makeScissorKey fbheight c.clipRect) } ::
            emitCmds fbheight keys bufferIndex rest (off + c.elemCount) := rfl
    have hfilter : ((c :: rest).enumFrom k).filter
          (fun p => !p.2.hasUserCallback) =
        if c.hasUserCallback then
          (rest.enumFrom (k + 1)).filter (fun p => !p.2.hasUserCallback)
        else
          (k, c) ::
            (rest.enumFrom (k + 1)).filter (fun p => !p.2.hasUserCallback) := by
      cases hcb : c.hasUserCallback <;>
        simp [List.enumFrom_cons, List.filter_cons, hcb]
    have hmapeq :
        ((List.enumFrom (k + 1) rest).filter
          (fun p => !p.2.hasUserCallback)).map
            (fun p =>
              ({ bufferIndex := bufferIndex,
                 indexOffset := off + elemSumBefore (c :: rest) (p.1 - k),
                 elemCount := p.2.elemCount,
                 materialIndex :=
                   keys.indexOf (makeScissorKey fbheight p.2.clipRect) } :
                Prim)) =
        ((List.enumFrom (k + 1) rest).filter
          (fun p => !p.2.hasUserCallback)).map
            (fun p =>
              ({ bufferIndex := bufferIndex,
                 indexOffset :=
                   (off + c.elemCount) + elemSumBefore rest (p.1 - (k + 1)),
                 elemCount := p.2.elemCount,
                 materialIndex :=
                   keys.indexOf (makeScissorKey fbheight p.2.clipRect) } :
                Prim)) := by
      refine List.map_congr_left ?_
      intro p hp
      have hmem : p ∈ List.enumFrom (k + 1) rest := List.mem_of_mem_filter hp
      have hle : k + 1 ≤ p.1 := List.le_fst_of_mem_enumFrom hmem
      have harith : p.1 - k = (p.1 - (k + 1)) + 1 := by omega
      rw [harith, elemSumBefore_cons_succ]
      have hadd : off + (c.elemCount + elemSumBefore rest (p.1 - (k + 1))) =
          off + c.elemCount + elemSumBefore rest (p.1 - (k + 1)) := by omega
      rw [hadd]
    rw [hunfold, hfilter]
    cases hcb : c.hasUserCallback
    · rw [if_neg (by simp [hcb]), if_neg (by simp [hcb]), List.map_cons]
      rw [emitCmds_eq_enumFrom fbheight keys bufferIndex rest (k + 1)
        (off + c.elemCount), ← hmapeq]
      have h0 : elemSumBefore (c :: rest) 0 = 0 := rfl
      simp [h0]
    · rw [if_pos rfl, if_pos rfl]
      rw [emitCmds_eq_enumFrom fbheight keys bufferIndex rest (k + 1)
        (off + c.elemCount), ← hmapeq]

theorem emitCmds_eq_specList (fbheight : Int) (keys : List Nat)
    (bufferIndex : Nat) (cmds : List DrawCmd) :
    emitCmds fbheight keys bufferIndex cmds 0 =
      specPrimsOfList fbheight keys bufferIndex cmds := by
  rw [emitCmds_eq_enumFrom fbheight keys bufferIndex cmds 0 0]
  unfold specPrimsOfList
  have henum : cmds.enum = cmds.enumFrom 0 := rfl
  rw [henum]
  refine List.map_congr_left ?_
  intro p _
  have h1 : p.1 - 0 = p.1 := Nat.sub_zero p.1
  rw [h1]
  have h2 : 0 + elemSumBefore cmds p.1 = elemSumBefore cmds p.1 :=
    Nat.zero_add _
  rw [h2]

theorem emitPrims_eq_specPrims (fbheight : Int) (keys : List Nat)
    (imguiData : ImDrawData) :
    emitPrims fbheight keys imguiData = specPrims fbheight keys imguiData := by
  unfold emitPrims specPrims
  refine List.flatMap_congr ?_
  intro p _
  exact emitCmds_eq_specList fbheight keys p.1 p.2.cmdBuffer

theorem dedup_length_map {α β : Type _} [DecidableEq α] [DecidableEq β]
    (f : α → β) :
    ∀ (l : List α),
    (∀ x ∈ l, ∀ y ∈ l, f x = f y → x = y) →
    ((l.map f).dedup).length = (l.dedup).length
  | [], _ => rfl
  | a :: l, hinj => by
    have hinj' : ∀ x ∈ l, ∀ y ∈ l, f x = f y → x = y :=
      fun x hx y hy h =>
        hinj x (List.mem_cons_of_mem a hx) y (List.mem_cons_of_mem a hy) h
    rw [List.map_cons]
    by_cases hmem : a ∈ l
    · rw [List.dedup_cons_of_mem hmem,
        List.dedup_cons_of_mem (List.mem_map_of_mem f hmem)]
      exact dedup_length_map f l hinj'
    · have hfmem : f a ∉ l.map f := by
        intro hc
        obtain ⟨b, hb, hfb⟩ := List.mem_map.mp hc
        have : b = a := hinj b (List.mem_cons_of_mem a hb) a
          (List.mem_cons_self a l) hfb
        exact hmem (this ▸ hb)
      rw [List.dedup_cons_of_not_mem hmem,
        List.dedup_cons_of_not_mem hfmem, List.length_cons, List.length_cons,
        dedup_length_map f l hinj']

theorem filter_enumFrom_map_snd {β : Type _} (q : DrawCmd → Bool)
    (g : DrawCmd → β) :
    ∀ (cmds : List DrawCmd) (k : Nat),
    ((cmds.enumFrom k).filter (fun p => q p.2)).map (fun p => g p.2) =
      (cmds.filter q).map g
  | [], _ => rfl
  | c :: rest, k => by
    rw [List.enumFrom_cons, List.filter_cons, List.filter_cons]
    cases hq : q c
    · rw [if_neg (by simp), if_neg (by simp)]
      exact filter_enumFrom_map_snd q g rest (k + 1)
    · rw [if_pos rfl, if_pos rfl, List.map_cons, List.map_cons,
        filter_enumFrom_map_snd q g rest (k + 1)]

theorem flatMap_enumFrom_snd {β : Type _} (F : DrawList → List β) :
    ∀ (l : List DrawList) (k : Nat),
    (List.enumFrom k l).flatMap (fun p => F p.2) = l.flatMap F
  | [], _ => rfl
  | a :: l, k => by
    rw [List.enumFrom_cons, List.flatMap_cons, List.flatMap_cons,
      flatMap_enumFrom_snd F l (k + 1)]

theorem specPrims_map_materialIndex (fbheight : Int) (keys : List Nat)
    (imguiData : ImDrawData) :
    (specPrims fbheight keys imguiData).map Prim.materialIndex =
      (ncCmdKeys fbheight imguiData).map (fun key => keys.indexOf key) := by
  unfold specPrims ncCmdKeys
  rw [List.map_flatMap]
  have hper : ∀ (p : Nat × DrawList),
      (specPrimsOfList fbheight keys p.1 p.2.cmdBuffer).map
        Prim.materialIndex =
      ((p.2.cmdBuffer.filter (fun c => !c.hasUserCallback)).map
        (fun c => makeScissorKey fbheight c.clipRect)).map
          (fun key => keys.indexOf key) := by
    intro p
    unfold specPrimsOfList
    rw [List.map_map, List.map_map]
    have henum : p.2.cmdBuffer.enum = p.2.cmdBuffer.enumFrom 0 := rfl
    rw [henum]
    exact filter_enumFrom_map_snd (fun c => !c.hasUserCallback)
      (fun c => keys.indexOf (makeScissorKey fbheight c.clipRect))
      p.2.cmdBuffer 0
  have hrw : imguiData.cmdLists.enum.flatMap
      (fun p => (specPrimsOfList fbheight keys p.1 p.2.cmdBuffer).map
        Prim.materialIndex) =
      imguiData.cmdLists.enum.flatMap
        (fun p => ((p.2.cmdBuffer.filter (fun c => !c.hasUserCallback)).map
          (fun c => makeScissorKey fbheight c.clipRect)).map
            (fun key => keys.indexOf key)) :=
    List.flatMap_congr (fun p _ => hper p)
  rw [hrw]
  have henum2 : imguiData.cmdLists.enum =
      imguiData.cmdLists.enumFrom 0 := rfl
  rw [henum2]
  rw [List.map_flatMap]
  exact flatMap_enumFrom_snd
    (fun l => ((l.cmdBuffer.filter (fun c => !c.hasUserCallback)).map
      (fun c => makeScissorKey fbheight c.clipRect)).map
        (fun key => keys.indexOf key))
    imguiData.cmdLists 0

theorem mem_ncCmdKeys_mem_cmdKeys (fbheight : Int) (imguiData : ImDrawData)
    (key : Nat) (h : key ∈ ncCmdKeys fbheight imguiData) :
    key ∈ cmdKeys fbheight imguiData := by
  unfold ncCmdKeys at h
  unfold cmdKeys
  obtain ⟨l, hl, hkey⟩ := List.mem_flatMap.mp h
  obtain ⟨c, hc, hck⟩ := List.mem_map.mp hkey
  exact List.mem_flatMap.mpr ⟨l, hl,
    List.mem_map.mpr ⟨c, List.mem_of_mem_filter hc, hck⟩⟩

theorem populateAll_materials (t : Bool) (s : BridgeState)
    (dd : ImDrawData) :
    (populateAll t s dd).material_instances = s.material_instances ∧
      (populateAll t s dd).renderable = s.renderable := by
  refine foldl_preserve
    (fun s' : BridgeState => s'.material_instances = s.material_instances ∧
      s'.renderable = s.renderable) _ ?_ _ _ ⟨rfl, rfl⟩
  intro b a hb
  obtain ⟨p1, p2, _, _⟩ := populateVertexData_spec t b a.1
    (a.2.vtxBufferSize * imDrawVertSize) (a.2.idxBufferSize * imDrawIdxSize)
  exact ⟨by rw [p1, hb.1], by rw [p2, hb.2]⟩

theorem findL_cons_some (k : ItemId) (id : ItemId) (n : String)
    (sub : MenuImpl) (e c sp : Bool) (rest : List MenuItem) :
    findL k (.mk id n (some sub) e c sp :: rest) =
      (match findM k sub with
       | some it => some it
       | none => findL k rest) := rfl

theorem findL_cons_none (k : ItemId) (id : ItemId) (n : String)
    (e c sp : Bool) (rest : List MenuItem) :
    findL k (.mk id n none e c sp :: rest) = findL k rest := rfl

theorem setL_cons_some (f : MenuItem → MenuItem) (k : ItemId) (id : ItemId)
    (n : String) (sub : MenuImpl) (e c sp : Bool) (rest : List MenuItem) :
    setL f k (.mk id n (some sub) e c sp :: rest) =
      (if (findM k sub).isSome then
        .mk id n (some (setM f k sub)) e c sp :: rest
      else .mk id n (some sub) e c sp :: setL f k rest) := rfl

theorem setL_cons_none (f : MenuItem → MenuItem) (k : ItemId) (id : ItemId)
    (n : String) (e c sp : Bool) (rest : List MenuItem) :
    setL f k (.mk id n none e c sp :: rest) =
      .mk id n none e c sp :: setL f k rest := rfl

theorem wfL_cons_some (id : ItemId) (n : String) (sub : MenuImpl)
    (e c sp : Bool) (rest : List MenuItem) :
    wfL (.mk id n (some sub) e c sp :: rest) = (wfM sub && wfL rest) := rfl

theorem wfL_cons_none (id : ItemId) (n : String) (e c sp : Bool)
    (rest : List MenuItem) :
    wfL (.mk id n none e c sp :: rest) = wfL rest := rfl

theorem hasIdL_cons (k : ItemId) (id : ItemId) (n : String)
    (sub : Option MenuImpl) (e c sp : Bool) (rest : List MenuItem) :
    hasIdL k (.mk id n sub e c sp :: rest) =
      (decide (id = k) ||
        (match sub with | some m => hasIdM k m | none => false) ||
        hasIdL k rest) := by
  conv_lhs => unfold hasIdL

theorem wfM_parts (items : List MenuItem) (idx : List (ItemId × Nat))
    (h : wfM (.mk items idx) = true) :
    (∀ p ∈ idx, p.2 < items.length ∧
        (items.getD p.2 defaultMenuItem).id = p.1 ∧
        (items.getD p.2 defaultMenuItem).submenu = none) ∧
      (∀ it ∈ items, it.id = NO_ITEM ∨
        (lookupIdx idx it.id).isSome = true) ∧
      wfL items = true := by
  unfold wfM at h
  rw [Bool.and_eq_true, Bool.and_eq_true] at h
  obtain ⟨⟨h1, h2⟩, h3⟩ := h
  refine ⟨?_, ?_, h3⟩
  · intro p hp
    have := List.all_eq_true.mp h1 p hp
    simp only [decide_eq_true_eq, Bool.and_eq_true] at this
    exact ⟨this.1, this.2.1, Option.isNone_iff_eq_none.mp this.2.2⟩
  · intro it hit
    have := List.all_eq_true.mp h2 it hit
    simp only [Bool.or_eq_true, decide_eq_true_eq] at this
    exact this

theorem lookupIdx_mem :
    ∀ (idx : List (ItemId × Nat)) (k : ItemId) (i : Nat),
    lookupIdx idx k = some i → (k, i) ∈ idx
  | [], _, _, h => Option.noConfusion h
  | (a, b) :: rest, k, i, h => by
    unfold lookupIdx at h
    by_cases hak : a = k
    · rw [if_pos hak] at h
      obtain rfl : b = i := Option.some_injective _ h
      rw [← hak]
      exact List.mem_cons_self _ _
    · rw [if_neg hak] at h
      exact List.mem_cons_of_mem _ (lookupIdx_mem rest k i h)

theorem getD_mem (items : List MenuItem) (i : Nat) (h : i < items.length) :
    items.getD i defaultMenuItem ∈ items := by
  rw [List.getD_eq_getElem?_getD, List.getElem?_eq_getElem h]
  exact List.getElem_mem h

theorem hasIdL_of_mem (k : ItemId) :
    ∀ (items : List MenuItem) (it : MenuItem), it ∈ items → it.id = k →
    hasIdL k items = true
  | [], it, hmem, _ => absurd hmem (List.not_mem_nil it)
  | .mk id n sub e c sp :: rest, it, hmem, hid => by
    rw [hasIdL_cons]
    rcases List.mem_cons.mp hmem with heq | hmem'
    · have hidk : id = k := by
        have hacc : it.id = id := by
          rw [heq]
          exact rfl
        rw [← hid, hacc]
      simp [hidk]
    · rw [hasIdL_of_mem k rest it hmem' hid]
      simp

mutual

theorem setM_noop (f : MenuItem → MenuItem) (k : ItemId) :
    ∀ (m : MenuImpl), findM k m = none → setM f k m = m
  | .mk items idx, h => by
    unfold findM at h
    unfold setM
    cases hl : lookupIdx idx k with
    | some i =>
      rw [hl] at h
      exact Option.noConfusion h
    | none =>
      rw [hl] at h
      have h' : findL k items = none := h
      show MenuImpl.mk (setL f k items) idx = MenuImpl.mk items idx
      rw [setL_noop f k items h']

theorem setL_noop (f : MenuItem → MenuItem) (k : ItemId) :
    ∀ (items : List MenuItem), findL k items = none → setL f k items = items
  | [], _ => rfl
  | .mk id n (some sub) e c sp :: rest, h => by
    rw [findL_cons_some] at h
    rw [setL_cons_some]
    cases hm : findM k sub with
    | some it =>
      rw [hm] at h
      exact Option.noConfusion h
    | none =>
      rw [hm] at h
      have h' : findL k rest = none := h
      have hgoal : (if (none : Option MenuItem).isSome = true then
          MenuItem.mk id n (some (setM f k sub)) e c sp :: rest
        else MenuItem.mk id n (some sub) e c sp :: setL f k rest) =
          MenuItem.mk id n (some sub) e c sp :: setL f k rest := rfl
      rw [hgoal, setL_noop f k rest h']
  | .mk id n none e c sp :: rest, h => by
    rw [findL_cons_none] at h
    rw [setL_cons_none, setL_noop f k rest h]

end

mutual

theorem findM_none_of_not_hasId (k : ItemId) :
    ∀ (m : MenuImpl), wfM m = true → hasIdM k m = false → findM k m = none
  | .mk items idx, hwf, hid => by
    obtain ⟨h1, _, h3⟩ := wfM_parts items idx hwf
    have hidl : hasIdL k items = false := hid
    unfold findM
    cases hl : lookupIdx idx k with
    | some i =>
      obtain ⟨hlt, hident, _⟩ := h1 (k, i) (lookupIdx_mem idx k i hl)
      have : hasIdL k items = true :=
        hasIdL_of_mem k items _ (getD_mem items i hlt) hident
      rw [this] at hidl
      exact Bool.noConfusion hidl
    | none => exact findL_none_of_not_hasId k items h3 hidl

theorem findL_none_of_not_hasId (k : ItemId) :
    ∀ (items : List MenuItem), wfL items = true → hasIdL k items = false →
    findL k items = none
  | [], _, _ => rfl
  | .mk id n (some sub) e c sp :: rest, hwf, hid => by
    rw [wfL_cons_some, Bool.and_eq_true] at hwf
    rw [hasIdL_cons] at hid
    simp only [Bool.or_eq_false_iff] at hid
    rw [findL_cons_some,
      findM_none_of_not_hasId k sub hwf.1 hid.1.2]
    exact findL_none_of_not_hasId k rest hwf.2 hid.2
  | .mk id n none e c sp :: rest, hwf, hid => by
    rw [wfL_cons_none] at hwf
    rw [hasIdL_cons] at hid
    simp only [Bool.or_eq_false_iff] at hid
    rw [findL_cons_none]
    exact findL_none_of_not_hasId k rest hwf hid.2

end

mutual

theorem findM_some_of_hasId (k : ItemId) (hk : k ≠ NO_ITEM) :
    ∀ (m : MenuImpl), wfM m = true → hasIdM k m = true →
    ∃ it, findM k m = some it ∧ it.id = k
  | .mk items idx, hwf, hid => by
    obtain ⟨h1, h2, h3⟩ := wfM_parts items idx hwf
    have hidl : hasIdL k items = true := hid
    unfold findM
    cases hl : lookupIdx idx k with
    | some i =>
      obtain ⟨hlt, hident, _⟩ := h1 (k, i) (lookupIdx_mem idx k i hl)
      exact ⟨items.getD i defaultMenuItem, rfl, hident⟩
    | none =>
      have hdirect : ∀ it ∈ items, it.id ≠ k := by
        intro it hmem hidk
        rcases h2 it hmem with hni | hsome
        · exact hk (hidk ▸ hni)
        · rw [hidk, hl] at hsome
          exact Bool.noConfusion hsome
      exact findL_some_of_hasId k hk items h3 hidl hdirect

theorem findL_some_of_hasId (k : ItemId) (hk : k ≠ NO_ITEM) :
    ∀ (items : List MenuItem), wfL items = true → hasIdL k items = true →
    (∀ it ∈ items, it.id ≠ k) →
    ∃ it, findL k items = some it ∧ it.id = k
  | [], _, hid, _ => Bool.noConfusion hid
  | .mk id n (some sub) e c sp :: rest, hwf, hid, hdirect => by
    rw [wfL_cons_some, Bool.and_eq_true] at hwf
    rw [hasIdL_cons] at hid
    have hidne : id ≠ k := by
      have hh := hdirect (.mk id n (some sub) e c sp)
        (List.mem_cons_self _ _)
      intro hc
      exact hh (by rw [← hc]; exact rfl)
    have hdec : decide (id = k) = false := decide_eq_false hidne
    have hm : (match (some sub : Option MenuImpl) with
        | some m => hasIdM k m
        | none => false) = hasIdM k sub := rfl
    rw [hdec, hm] at hid
    simp only [Bool.false_or] at hid
    rw [findL_cons_some]
    rcases (by simpa using hid :
      hasIdM k sub = true ∨ hasIdL k rest = true) with hsub | hrest
    · obtain ⟨it, hfind, hidit⟩ :=
        findM_some_of_hasId k hk sub hwf.1 hsub
      rw [hfind]
      exact ⟨it, rfl, hidit⟩
    · by_cases hsub2 : hasIdM k sub = true
      · obtain ⟨it, hfind, hidit⟩ :=
          findM_some_of_hasId k hk sub hwf.1 hsub2
        rw [hfind]
        exact ⟨it, rfl, hidit⟩
      · have hsubf : hasIdM k sub = false :=
          Bool.eq_false_iff.mpr hsub2
        rw [findM_none_of_not_hasId k sub hwf.1 hsubf]
        exact findL_some_of_hasId k hk rest hwf.2 hrest
          (fun it hm => hdirect it (List.mem_cons_of_mem _ hm))
  | .mk id n none e c sp :: rest, hwf, hid, hdirect => by
    rw [wfL_cons_none] at hwf
    rw [hasIdL_cons] at hid
    have hidne : id ≠ k := by
      have hh := hdirect (.mk id n none e c sp) (List.mem_cons_self _ _)
      intro hc
      exact hh (by rw [← hc]; exact rfl)
    have hdec : decide (id = k) = false := decide_eq_false hidne
    have hm : (match (none : Option MenuImpl) with
        | some m => hasIdM k m
        | none => false) = false := rfl
    rw [hdec, hm] at hid
    simp only [Bool.false_or] at hid
    rw [findL_cons_none]
    exact findL_some_of_hasId k hk rest hwf hid
      (fun it hm2 => hdirect it (List.mem_cons_of_mem _ hm2))

end

theorem setL_length (f : MenuItem → MenuItem) (k : ItemId) :
    ∀ (items : List MenuItem), (setL f k items).length = items.length
  | [] => rfl
  | .mk id n (some sub) e c sp :: rest => by
    rw [setL_cons_some]
    split
    · rfl
    · rw [List.length_cons, List.length_cons, setL_length f k rest]
  | .mk id n none e c sp :: rest => by
    rw [setL_cons_none, List.length_cons, List.length_cons,
      setL_length f k rest]

theorem setL_getD_of_submenu_none (f : MenuItem → MenuItem) (k : ItemId) :
    ∀ (items : List MenuItem) (i : Nat),
    (items.getD i defaultMenuItem).submenu = none →
    (setL f k items).getD i defaultMenuItem = items.getD i defaultMenuItem
  | [], _, _ => rfl
  | .mk id n (some sub) e c sp :: rest, i, h => by
    rw [setL_cons_some]
    split
    · cases i with
      | zero =>
        exact absurd h (by
          intro hc
          exact Option.noConfusion hc)
      | succ j => rfl
    · cases i with
      | zero => rfl
      | succ j =>
        have hj : (rest.getD j defaultMenuItem).submenu = none := h
        exact setL_getD_of_submenu_none f k rest j hj
  | .mk id n none e c sp :: rest, i, h => by
    rw [setL_cons_none]
    cases i with
    | zero => rfl
    | succ j =>
      have hj : (rest.getD j defaultMenuItem).submenu = none := h
      exact setL_getD_of_submenu_none f k rest j hj

theorem findL_modify (f : MenuItem → MenuItem)
    (hsub : ∀ it, (f it).submenu = it.submenu) (k' : ItemId) :
    ∀ (items : List MenuItem) (i : Nat),
    findL k' (items.modify f i) = findL k' items
  | [], i => by rw [List.modify_nil]
  | .mk id n sub e c sp :: rest, 0 => by
    rw [List.modify_zero_cons]
    cases hfa : f (.mk id n sub e c sp) with
    | mk id2 n2 sub2 e2 c2 sp2 =>
      have hs2 : sub2 = sub := by
        have := hsub (.mk id n sub e c sp)
        rw [hfa] at this
        exact this
      rw [hs2]
      cases sub with
      | some s => rw [findL_cons_some, findL_cons_some]
      | none => rw [findL_cons_none, findL_cons_none]
  | .mk id n sub e c sp :: rest, j + 1 => by
    rw [List.modify_succ_cons]
    cases sub with
    | some s =>
      rw [findL_cons_some, findL_cons_some, findL_modify f hsub k' rest j]
    | none =>
      rw [findL_cons_none, findL_cons_none, findL_modify f hsub k' rest j]

mutual

theorem findM_setM_self (f : MenuItem → MenuItem) (k : ItemId) :
    ∀ (m : MenuImpl), wfM m = true →
    findM k (setM f k m) = (findM k m).map f
  | .mk items idx, hwf => by
    obtain ⟨h1, _, h3⟩ := wfM_parts items idx hwf
    unfold setM
    cases hl : lookupIdx idx k with
    | some i =>
      obtain ⟨hlt, _, _⟩ := h1 (k, i) (lookupIdx_mem idx k i hl)
      show findM k (.mk (items.modify f i) idx) = _
      unfold findM
      rw [hl]
      show some ((items.modify f i).getD i defaultMenuItem) =
        some (f (items.getD i defaultMenuItem))
      rw [List.getD_eq_getElem?_getD, List.getD_eq_getElem?_getD,
        List.getElem?_modify, List.getElem?_eq_getElem hlt]
      simp
    | none =>
      show findM k (.mk (setL f k items) idx) = _
      unfold findM
      rw [hl]
      exact findL_setL_self f k items h3

theorem findL_setL_self (f : MenuItem → MenuItem) (k : ItemId) :
    ∀ (items : List MenuItem), wfL items = true →
    findL k (setL f k items) = (findL k items).map f
  | [], _ => rfl
  | .mk id n (some sub) e c sp :: rest, hwf => by
    rw [wfL_cons_some, Bool.and_eq_true] at hwf
    rw [setL_cons_some, findL_cons_some]
    cases hm : findM k sub with
    | some it =>
      rw [if_pos (show (some it : Option MenuItem).isSome = true from rfl),
        findL_cons_some, findM_setM_self f k sub hwf.1, hm]
      rfl
    | none =>
      rw [if_neg (show ¬ (none : Option MenuItem).isSome = true from
          fun hc => Bool.noConfusion hc),
        findL_cons_some, hm]
      exact findL_setL_self f k rest hwf.2
  | .mk id n none e c sp :: rest, hwf => by
    rw [wfL_cons_none] at hwf
    rw [setL_cons_none, findL_cons_none, findL_cons_none]
    exact findL_setL_self f k rest hwf

end

mutual

theorem findM_setM_ne (f : MenuItem → MenuItem)
    (hsub : ∀ it, (f it).submenu = it.submenu)
    (hid : ∀ it, (f it).id = it.id) (k k' : ItemId) (hne : k' ≠ k) :
    ∀ (m : MenuImpl), wfM m = true →
    findM k' (setM f k m) = findM k' m
  | .mk items idx, hwf => by
    obtain ⟨h1, _, h3⟩ := wfM_parts items idx hwf
    unfold setM
    cases hl : lookupIdx idx k with
    | some i =>
      obtain ⟨hlt, hidk, _⟩ := h1 (k, i) (lookupIdx_mem idx k i hl)
      show findM k' (.mk (items.modify f i) idx) = _
      unfold findM
      cases hl' : lookupIdx idx k' with
      | some i' =>
        obtain ⟨hlt', hidk', _⟩ := h1 (k', i') (lookupIdx_mem idx k' i' hl')
        have hii : i ≠ i' := by
          intro hc
          rw [hc] at hidk
          rw [hidk] at hidk'
          exact hne hidk'.symm
        show some ((items.modify f i).getD i' defaultMenuItem) =
          some (items.getD i' defaultMenuItem)
        rw [List.getD_eq_getElem?_getD, List.getD_eq_getElem?_getD,
          List.getElem?_modify]
        simp [hii]
      | none => exact findL_modify f hsub k' items i
    | none =>
      show findM k' (.mk (setL f k items) idx) = _
      unfold findM
      cases hl' : lookupIdx idx k' with
      | some i' =>
        obtain ⟨hlt', _, hsubnone⟩ := h1 (k', i') (lookupIdx_mem idx k' i' hl')
        show some ((setL f k items).getD i' defaultMenuItem) =
          some (items.getD i' defaultMenuItem)
        rw [setL_getD_of_submenu_none f k items i' hsubnone]
      | none => exact findL_setL_ne f hsub hid k k' hne items h3

theorem findL_setL_ne (f : MenuItem → MenuItem)
    (hsub : ∀ it, (f it).submenu = it.submenu)
    (hid : ∀ it, (f it).id = it.id) (k k' : ItemId) (hne : k' ≠ k) :
    ∀ (items : List MenuItem), wfL items = true →
    findL k' (setL f k items) = findL k' items
  | [], _ => rfl
  | .mk id n (some sub) e c sp :: rest, hwf => by
    rw [wfL_cons_some, Bool.and_eq_true] at hwf
    rw [setL_cons_some]
    split
    · rw [findL_cons_some, findL_cons_some,
        findM_setM_ne f hsub hid k k' hne sub hwf.1]
    · rw [findL_cons_some, findL_cons_some,
        findL_setL_ne f hsub hid k k' hne rest hwf.2]
  | .mk id n none e c sp :: rest, hwf => by
    rw [wfL_cons_none] at hwf
    rw [setL_cons_none, findL_cons_none, findL_cons_none]
    exact findL_setL_ne f hsub hid k k' hne rest hwf

end

theorem lookupIdx_cons (a : ItemId) (b : Nat)
    (rest : List (ItemId × Nat)) (k : ItemId) :
    lookupIdx ((a, b) :: rest) k =
      if a = k then some b else lookupIdx rest k := rfl

theorem lookupIdx_map_self (k : ItemId) (v : Nat) :
    ∀ (m : List (ItemId × Nat)) (i : Nat), lookupIdx m k = some i →
    lookupIdx (m.map (fun p => if p.1 = k then (k, v) else p)) k = some v
  | [], i, h => Option.noConfusion h
  | (a, b) :: rest, i, h => by
    unfold lookupIdx at h
    rw [List.map_cons]
    by_cases hak : a = k
    · rw [if_pos hak] at h ⊢
      unfold lookupIdx
      rw [if_pos rfl]
    · rw [if_neg hak] at h ⊢
      unfold lookupIdx
      rw [if_neg hak]
      exact lookupIdx_map_self k v rest i h

theorem lookupIdx_map_ne (k k' : ItemId) (hne : k' ≠ k) (v : Nat) :
    ∀ (m : List (ItemId × Nat)),
    lookupIdx (m.map (fun p => if p.1 = k then (k, v) else p)) k' =
      lookupIdx m k'
  | [] => rfl
  | (a, b) :: rest => by
    rw [List.map_cons]
    by_cases hak : a = k
    · rw [if_pos hak]
      unfold lookupIdx
      have hkk : ¬ ((k, v) : ItemId × Nat).1 = k' := by
        intro hc
        exact hne (by rw [← hc])
      rw [if_neg hkk, if_neg (by
        intro hc
        exact hne (by rw [← hc, hak]))]
      exact lookupIdx_map_ne k k' hne v rest
    · rw [if_neg hak]
      unfold lookupIdx
      by_cases hak' : a = k'
      · rw [if_pos hak', if_pos hak']
      · rw [if_neg hak', if_neg hak']
        exact lookupIdx_map_ne k k' hne v rest

theorem lookupIdx_append (k : ItemId) (m2 : List (ItemId × Nat)) :
    ∀ (m1 : List (ItemId × Nat)),
    lookupIdx (m1 ++ m2) k =
      (match lookupIdx m1 k with
       | some x => some x
       | none => lookupIdx m2 k)
  | [] => rfl
  | (a, b) :: rest => by
    rw [List.cons_append, lookupIdx_cons, lookupIdx_cons]
    by_cases hak : a = k
    · rw [if_pos hak, if_pos hak]
    · rw [if_neg hak, if_neg hak]
      exact lookupIdx_append k m2 rest

theorem lookupIdx_none_keys (k : ItemId) :
    ∀ (m : List (ItemId × Nat)), lookupIdx m k = none →
    ∀ p ∈ m, p.1 ≠ k
  | [], _, p, hp => absurd hp (List.not_mem_nil p)
  | (a, b) :: rest, h, p, hp => by
    unfold lookupIdx at h
    by_cases hak : a = k
    · rw [if_pos hak] at h
      exact Option.noConfusion h
    · rw [if_neg hak] at h
      rcases List.mem_cons.mp hp with heq | hmem
      · rw [heq]
        exact hak
      · exact lookupIdx_none_keys k rest h p hmem

theorem lookupIdx_mapInsert_self (m : List (ItemId × Nat)) (k : ItemId)
    (v : Nat) : lookupIdx (mapInsert m k v) k = some v := by
  unfold mapInsert
  cases hl : lookupIdx m k with
  | some i => exact lookupIdx_map_self k v m i hl
  | none =>
    rw [lookupIdx_append k [(k, v)] m, hl]
    show lookupIdx [(k, v)] k = some v
    unfold lookupIdx
    rw [if_pos rfl]

theorem lookupIdx_mapInsert_ne (m : List (ItemId × Nat)) (k k' : ItemId)
    (hne : k' ≠ k) (v : Nat) :
    lookupIdx (mapInsert m k v) k' = lookupIdx m k' := by
  unfold mapInsert
  cases hl : lookupIdx m k with
  | some i => exact lookupIdx_map_ne k k' hne v m
  | none =>
    rw [lookupIdx_append k' [(k, v)] m]
    cases hl' : lookupIdx m k' with
    | some x => rfl
    | none =>
      show lookupIdx [(k, v)] k' = none
      unfold lookupIdx
      rw [if_neg (by
        intro hc
        exact hne (by rw [← hc]))]
      rfl

theorem mem_mapInsert (m : List (ItemId × Nat)) (k : ItemId) (v : Nat)
    (p : ItemId × Nat) (hp : p ∈ mapInsert m k v) :
    (p ∈ m ∧ p.1 ≠ k) ∨ p = (k, v) := by
  unfold mapInsert at hp
  cases hl : lookupIdx m k with
  | some i =>
    rw [hl] at hp
    obtain ⟨q, hq, hqp⟩ := List.mem_map.mp hp
    by_cases hqk : q.1 = k
    · rw [if_pos hqk] at hqp
      exact Or.inr hqp.symm
    · rw [if_neg hqk] at hqp
      exact Or.inl ⟨hqp ▸ hq, hqp ▸ hqk⟩
  | none =>
    rw [hl] at hp
    rcases List.mem_append.mp hp with hm | hnew
    · exact Or.inl ⟨hm, lookupIdx_none_keys k m hl p hm⟩
    · rcases List.mem_singleton.mp hnew with heq
      exact Or.inr heq

theorem wfL_append_single :
    ∀ (items : List MenuItem) (it : MenuItem), wfL items = true →
    wfL [it] = true → wfL (items ++ [it]) = true
  | [], it, _, h2 => h2
  | .mk id n (some sub) e c sp :: rest, it, h1, h2 => by
    rw [wfL_cons_some, Bool.and_eq_true] at h1
    rw [List.cons_append, wfL_cons_some, Bool.and_eq_true]
    exact ⟨h1.1, wfL_append_single rest it h1.2 h2⟩
  | .mk id n none e c sp :: rest, it, h1, h2 => by
    rw [wfL_cons_none] at h1
    rw [List.cons_append, wfL_cons_none]
    exact wfL_append_single rest it h1 h2

theorem wfM_intro (items : List MenuItem) (idx : List (ItemId × Nat))
    (h1 : ∀ p ∈ idx, p.2 < items.length ∧
      (items.getD p.2 defaultMenuItem).id = p.1 ∧
      (items.getD p.2 defaultMenuItem).submenu = none)
    (h2 : ∀ it ∈ items, it.id = NO_ITEM ∨
      (lookupIdx idx it.id).isSome = true)
    (h3 : wfL items = true) : wfM (.mk items idx) = true := by
  unfold wfM
  rw [Bool.and_eq_true, Bool.and_eq_true]
  refine ⟨⟨?_, ?_⟩, h3⟩
  · rw [List.all_eq_true]
    intro p hp
    obtain ⟨a, b, c⟩ := h1 p hp
    simp only [decide_eq_true_eq, Bool.and_eq_true]
    exact ⟨a, b, Option.isNone_iff_eq_none.mpr c⟩
  · rw [List.all_eq_true]
    intro it hit
    simp only [Bool.or_eq_true, decide_eq_true_eq]
    exact h2 it hit

theorem wfM_emptyMenu : wfM emptyMenu = true := by decide

theorem wfM_addItem (items : List MenuItem) (idx : List (ItemId × Nat))
    (name : String) (itemId : ItemId)
    (hwf : wfM (.mk items idx) = true) :
    wfM (MenuImpl.addItem (.mk items idx) name itemId) = true := by
  obtain ⟨h1, h2, h3⟩ := wfM_parts items idx hwf
  have hadd : MenuImpl.addItem (.mk items idx) name itemId =
      .mk (items ++ [MenuItem.mk itemId name none true false false])
        (mapInsert idx itemId items.length) := rfl
  rw [hadd]
  have hnew : (items ++ [MenuItem.mk itemId name none true false false]).getD
      items.length defaultMenuItem =
      MenuItem.mk itemId name none true false false := by
    rw [List.getD_eq_getElem?_getD, List.getElem?_append_right (Nat.le_refl _)]
    simp
  refine wfM_intro _ _ ?_ ?_ ?_
  · intro p hp
    rcases mem_mapInsert idx itemId items.length p hp with ⟨hmem, _⟩ | heq
    · obtain ⟨ha, hb, hc⟩ := h1 p hmem
      have hgd : (items ++
          [MenuItem.mk itemId name none true false false]).getD p.2
          defaultMenuItem = items.getD p.2 defaultMenuItem := by
        rw [List.getD_eq_getElem?_getD, List.getD_eq_getElem?_getD,
          List.getElem?_append_left ha]
      rw [hgd]
      refine ⟨?_, hb, hc⟩
      rw [List.length_append]
      omega
    · rw [heq]
      refine ⟨?_, ?_, ?_⟩
      · show items.length <
          (items ++ [MenuItem.mk itemId name none true false false]).length
        rw [List.length_append]
        simp
      · show ((items ++
            [MenuItem.mk itemId name none true false false]).getD
            items.length defaultMenuItem).id = itemId
        rw [hnew]
        exact rfl
      · show ((items ++
            [MenuItem.mk itemId name none true false false]).getD
            items.length defaultMenuItem).submenu = none
        rw [hnew]
        exact rfl
  · intro it hit
    rcases List.mem_append.mp hit with hmem | hnew2
    · rcases h2 it hmem with hni | hsome
      · exact Or.inl hni
      · right
        by_cases hkk : it.id = itemId
        · rw [hkk, lookupIdx_mapInsert_self]
          rfl
        · rw [lookupIdx_mapInsert_ne idx itemId it.id hkk items.length]
          exact hsome
    · right
      have heq : it = MenuItem.mk itemId name none true false false :=
        List.mem_singleton.mp hnew2
      rw [heq]
      show (lookupIdx (mapInsert idx itemId items.length)
        (MenuItem.mk itemId name none true false false).id).isSome = true
      have hid : (MenuItem.mk itemId name none true false false).id =
        itemId := rfl
      rw [hid, lookupIdx_mapInsert_self]
      rfl
  · refine wfL_append_single items _ h3 ?_
    rfl

theorem wfM_addMenu (items : List MenuItem) (idx : List (ItemId × Nat))
    (name : String) (submenu : MenuImpl)
    (hwf : wfM (.mk items idx) = true) (hwfsub : wfM submenu = true) :
    wfM (MenuImpl.addMenu (.mk items idx) name submenu) = true := by
  obtain ⟨h1, h2, h3⟩ := wfM_parts items idx hwf
  have hadd : MenuImpl.addMenu (.mk items idx) name submenu =
      .mk (items ++ [MenuItem.mk NO_ITEM name (some submenu) true false false])
        idx := rfl
  rw [hadd]
  refine wfM_intro _ _ ?_ ?_ ?_
  · intro p hp
    obtain ⟨ha, hb, hc⟩ := h1 p hp
    have hgd : (items ++
        [MenuItem.mk NO_ITEM name (some submenu) true false false]).getD p.2
        defaultMenuItem = items.getD p.2 defaultMenuItem := by
      rw [List.getD_eq_getElem?_getD, List.getD_eq_getElem?_getD,
        List.getElem?_append_left ha]
    rw [hgd]
    refine ⟨?_, hb, hc⟩
    rw [List.length_append]
    omega
  · intro it hit
    rcases List.mem_append.mp hit with hmem | hnew2
    · exact h2 it hmem
    · left
      have : it = MenuItem.mk NO_ITEM name (some submenu) true false false :=
        List.mem_singleton.mp hnew2
      rw [this]
      exact rfl
  · refine wfL_append_single items _ h3 ?_
    rw [show wfL [MenuItem.mk NO_ITEM name (some submenu) true false false] =
      (wfM submenu && wfL []) from rfl, hwfsub]
    rfl

theorem wfM_addSeparator (items : List MenuItem)
    (idx : List (ItemId × Nat)) (hwf : wfM (.mk items idx) = true) :
    wfM (MenuImpl.addSeparator (.mk items idx)) = true := by
  obtain ⟨h1, h2, h3⟩ := wfM_parts items idx hwf
  have hadd : MenuImpl.addSeparator (.mk items idx) =
      .mk (items ++ [MenuItem.mk NO_ITEM "" none false false true]) idx := rfl
  rw [hadd]
  refine wfM_intro _ _ ?_ ?_ ?_
  · intro p hp
    obtain ⟨ha, hb, hc⟩ := h1 p hp
    have hgd : (items ++ [MenuItem.mk NO_ITEM "" none false false true]).getD p.2
        defaultMenuItem = items.getD p.2 defaultMenuItem := by
      rw [List.getD_eq_getElem?_getD, List.getD_eq_getElem?_getD,
        List.getElem?_append_left ha]
    rw [hgd]
    refine ⟨?_, hb, hc⟩
    rw [List.length_append]
    omega
  · intro it hit
    rcases List.mem_append.mp hit with hmem | hnew2
    · exact h2 it hmem
    · left
      have : it = MenuItem.mk NO_ITEM "" none false false true :=
        List.mem_singleton.mp hnew2
      rw [this]
      exact rfl
  · exact wfL_append_single items _ h3 rfl

/-! ## Claim C9 -/

/-- Claim C9: for every well-formed Menu tree (as the construction API builds
it: `id2idx_` entries point at submenu-free items carrying that id, every
direct non-`NO_ITEM` item id is indexed, recursively), `SetEnabled` and
`SetChecked` locate the target item by recursive search through submenus at
arbitrary nesting depth and modify only that item's flag: (a) when no item
anywhere in the tree carries the identifier the call changes no menu state at
all; (b) when some item carries it (a real id, not the `NO_ITEM` sentinel)
the flag of the located item is set, at any depth; (c) items with other
identifiers keep both flags, and `SetEnabled` never touches any checked flag
nor `SetChecked` any enabled flag. -/
theorem menu_set_flags_recursive (m : MenuImpl) (k : ItemId) (b : Bool)
    (hwf : wfM m = true) :
    (hasIdM k m = false →
      m.setEnabled k b = m ∧ m.setChecked k b = m) ∧
      (hasIdM k m = true → k ≠ NO_ITEM →
        (m.setEnabled k b).isEnabled k = b ∧
          (m.setChecked k b).isChecked k = b) ∧
      (∀ k', k' ≠ k →
        (m.setEnabled k b).isEnabled k' = m.isEnabled k' ∧
          (m.setChecked k b).isChecked k' = m.isChecked k') ∧
      (∀ k', (m.setEnabled k b).isChecked k' = m.isChecked k' ∧
        (m.setChecked k b).isEnabled k' = m.isEnabled k') := by
  set fE : MenuItem → MenuItem := fun it => match it with
    | .mk i n sub _ c s => .mk i n sub b c s with hfE
  set fC : MenuItem → MenuItem := fun it => match it with
    | .mk i n sub e _ s => .mk i n sub e b s with hfC
  have hdefE : m.setEnabled k b = setM fE k m := rfl
  have hdefC : m.setChecked k b = setM fC k m := rfl
  have hsubE : ∀ it, (fE it).submenu = it.submenu := by
    intro it
    cases it
    rfl
  have hidE : ∀ it, (fE it).id = it.id := by
    intro it
    cases it
    rfl
  have henbE : ∀ it, (fE it).enabled = b := by
    intro it
    cases it
    rfl
  have hchkE : ∀ it, (fE it).checked = it.checked := by
    intro it
    cases it
    rfl
  have hsubC : ∀ it, (fC it).submenu = it.submenu := by
    intro it
    cases it
    rfl
  have hidC : ∀ it, (fC it).id = it.id := by
    intro it
    cases it
    rfl
  have hchkC : ∀ it, (fC it).checked = b := by
    intro it
    cases it
    rfl
  have henbC : ∀ it, (fC it).enabled = it.enabled := by
    intro it
    cases it
    rfl
  refine ⟨?_, ?_, ?_, ?_⟩
  · intro h
    have hf := findM_none_of_not_hasId k m hwf h
    rw [hdefE, hdefC]
    exact ⟨setM_noop fE k m hf, setM_noop fC k m hf⟩
  · intro h hk
    obtain ⟨it, hfind, _⟩ := findM_some_of_hasId k hk m hwf h
    constructor
    · have h1 : findM k (m.setEnabled k b) = some (fE it) := by
        rw [hdefE, findM_setM_self fE k m hwf, hfind]
        rfl
      unfold MenuImpl.isEnabled
      rw [h1]
      exact henbE it
    · have h1 : findM k (m.setChecked k b) = some (fC it) := by
        rw [hdefC, findM_setM_self fC k m hwf, hfind]
        rfl
      unfold MenuImpl.isChecked
      rw [h1]
      exact hchkC it
  · intro k' hk'
    constructor
    · unfold MenuImpl.isEnabled
      rw [hdefE, findM_setM_ne fE hsubE hidE k k' hk' m hwf]
    · unfold MenuImpl.isChecked
      rw [hdefC, findM_setM_ne fC hsubC hidC k k' hk' m hwf]
  · intro k'
    by_cases hk' : k' = k
    · subst hk'
      constructor
      · unfold MenuImpl.isChecked
        rw [hdefE, findM_setM_self fE k' m hwf]
        cases hfind : findM k' m with
        | none => rfl
        | some it =>
          show (fE it).checked = it.checked
          exact hchkE it
      · unfold MenuImpl.isEnabled
        rw [hdefC, findM_setM_self fC k' m hwf]
        cases hfind : findM k' m with
        | none => rfl
        | some it =>
          show (fC it).enabled = it.enabled
          exact henbC it
    · constructor
      · unfold MenuImpl.isChecked
        rw [hdefE, findM_setM_ne fE hsubE hidE k k' hk' m hwf]
      · unfold MenuImpl.isEnabled
        rw [hdefC, findM_setM_ne fC hsubC hidC k k' hk' m hwf]

/-- Witness for C9: on the concrete two-level menu, setting the flag of the
nested item id 7 works at depth and setting an absent id 99 changes
nothing. -/
theorem menu_set_flags_recursive_witness :
    ((menuSampleOuter.setEnabled 7 false).isEnabled 7 = false ∧
      (menuSampleOuter.setChecked 7 false).isChecked 7 = false) ∧
      (menuSampleOuter.setEnabled 99 false = menuSampleOuter ∧
        menuSampleOuter.setChecked 99 false = menuSampleOuter) :=
  ⟨(menu_set_flags_recursive menuSampleOuter 7 false (by decide)).2.1
      (by decide) (by decide),
    (menu_set_flags_recursive menuSampleOuter 99 false (by decide)).1
      (by decide)⟩

/-! ## Claim C1 -/

/-- Claim C1: for every frame with nonzero framebuffer area, after `update`
returns, the new Renderable is built with exactly the sum over all draw
lists of their per-list command counts as its primitive count, and its
emitted primitives are one per non-callback command, in order, with the
index offset of each being the running sum of `ElemCount` over the preceding
commands of the same list (0 at the start of each list, reset per list) and
the material being the pool slot of the command's scissor key; the result is
a function of this frame's input alone, so no primitive from a prior frame
remains (with zero draw lists the renderable stays absent). -/
theorem update_renderable_roundtrip (t : Bool) (fbw fbh : Int)
    (dd : ImDrawData) (s : BridgeState) (h1 : fbw ≠ 0) (h2 : fbh ≠ 0) :
    (update t fbw fbh dd s).renderable =
      (if dd.cmdLists.length = 0 then none
       else
         some ⟨(dd.cmdLists.map (fun l => l.cmdBuffer.length)).sum,
           specPrims fbh (frameKeys fbh dd) dd⟩) := by
  have hz : ¬ (fbw = 0 ∨ fbh = 0) := by
    rintro (hc | hc)
    · exact h1 hc
    · exact h2 hc
  rw [update_eq t fbw fbh dd s hz]
  show (if dd.cmdLists.length > 0 then
      some (⟨countPrims dd, emitPrims fbh (frameKeys fbh dd) dd⟩ :
        Renderable)
    else none) = _
  rw [emitPrims_eq_specPrims]
  have hcount : countPrims dd =
      (dd.cmdLists.map (fun l => l.cmdBuffer.length)).sum := rfl
  rw [hcount]
  by_cases hn : dd.cmdLists.length = 0
  · rw [if_neg (by omega), if_pos hn]
  · rw [if_pos (by omega), if_neg hn]

/-- Witness for C1: the concrete two-list frame `rtSample` (with a callback
command inside). -/
theorem update_renderable_roundtrip_witness :
    (update true 100 100 rtSample sampleState).renderable =
      (if rtSample.cmdLists.length = 0 then none
       else
         some ⟨(rtSample.cmdLists.map (fun l => l.cmdBuffer.length)).sum,
           specPrims 100 (frameKeys 100 rtSample) rtSample⟩) :=
  update_renderable_roundtrip true 100 100 rtSample sampleState
    (by decide) (by decide)

/-! ## Claim C2 -/

/-- Claim C2 (amended): within a single update call on a nonzero-area frame,
the number of distinct material-pool slots assigned to emitted primitives
equals the number of distinct packed ScissorKeys among the frame's draw
commands that do not carry a user callback; the pool grows to the
unique-key count over all commands exactly when that count exceeds the
current pool size — by exactly the shortfall — and is unchanged otherwise;
the pool never shrinks across frames. -/
theorem update_material_assignment (t : Bool) (fbw fbh : Int)
    (dd : ImDrawData) (s : BridgeState) (h1 : fbw ≠ 0) (h2 : fbh ≠ 0) :
    (update t fbw fbh dd s).material_instances =
      max s.material_instances (frameKeys fbh dd).length ∧
      s.material_instances ≤ (update t fbw fbh dd s).material_instances ∧
      ((frameKeys fbh dd).length ≤ s.material_instances →
        (update t fbw fbh dd s).material_instances =
          s.material_instances) ∧
      (s.material_instances < (frameKeys fbh dd).length →
        (update t fbw fbh dd s).material_instances - s.material_instances =
          (frameKeys fbh dd).length - s.material_instances) ∧
      (∀ r, (update t fbw fbh dd s).renderable = some r →
        ((r.prims.map Prim.materialIndex).dedup).length =
          ((ncCmdKeys fbh dd).dedup).length) := by
  have hz : ¬ (fbw = 0 ∨ fbh = 0) := by
    rintro (hc | hc)
    · exact h1 hc
    · exact h2 hc
  rw [update_eq t fbw fbh dd s hz]
  set s1 : BridgeState := { s with has_synced := false } with hs1
  set s2 := createBuffers t s1 dd.cmdLists.length with hs2
  set s3 := (if (frameKeys fbh dd).length > s2.material_instances then
      { s2 with material_instances := (frameKeys fbh dd).length }
    else s2) with hs3
  obtain ⟨hpm, _⟩ := populateAll_materials t s3 dd
  obtain ⟨c1, _, _, _, _, _⟩ := createBuffers_spec t s1 dd.cmdLists.length
  have hs2m : s2.material_instances = s.material_instances := c1
  have hs3m : s3.material_instances =
      max s.material_instances (frameKeys fbh dd).length := by
    rw [hs3]
    split
    · show (frameKeys fbh dd).length = _
      omega
    · show s2.material_instances = _
      omega
  have hmat : ({ populateAll t s3 dd with
      renderable := if dd.cmdLists.length > 0 then
        some ⟨countPrims dd, emitPrims fbh (frameKeys fbh dd) dd⟩
      else none } : BridgeState).material_instances =
      max s.material_instances (frameKeys fbh dd).length := by
    show (populateAll t s3 dd).material_instances = _
    rw [hpm, hs3m]
  refine ⟨hmat, by omega, by omega, by omega, ?_⟩
  intro r hr
  have hrend : ({ populateAll t s3 dd with
      renderable := if dd.cmdLists.length > 0 then
        some ⟨countPrims dd, emitPrims fbh (frameKeys fbh dd) dd⟩
      else none } : BridgeState).renderable =
      (if dd.cmdLists.length > 0 then
        some ⟨countPrims dd, emitPrims fbh (frameKeys fbh dd) dd⟩
      else none) := rfl
  rw [hrend] at hr
  by_cases hn : dd.cmdLists.length > 0
  · rw [if_pos hn] at hr
    obtain rfl : (⟨countPrims dd,
        emitPrims fbh (frameKeys fbh dd) dd⟩ : Renderable) = r :=
      Option.some_injective _ hr
    show ((emitPrims fbh (frameKeys fbh dd) dd).map
        Prim.materialIndex).dedup.length = _
    rw [emitPrims_eq_specPrims, specPrims_map_materialIndex]
    refine dedup_length_map (fun key => (frameKeys fbh dd).indexOf key)
      (ncCmdKeys fbh dd) ?_
    intro x hx y hy hxy
    have hxk : x ∈ frameKeys fbh dd :=
      List.mem_dedup.mpr (mem_ncCmdKeys_mem_cmdKeys fbh dd x hx)
    have hyk : y ∈ frameKeys fbh dd :=
      List.mem_dedup.mpr (mem_ncCmdKeys_mem_cmdKeys fbh dd y hy)
    exact (List.indexOf_inj hxk hyk).mp hxy
  · rw [if_neg hn] at hr
    exact Option.noConfusion hr

/-- Claim C2 counterexample: a frame whose only command carries a user
callback.  Its unique scissor key counts for the pool (1 distinct key among
the frame's draw commands), yet no primitive is emitted, so 0 distinct
material instances are assigned to primitives — the claimed equality fails. -/
theorem update_distinct_materials_counterexample :
    ((update true 100 100 ⟨[⟨0, 0, [⟨3, ⟨0, 0, 0, 0⟩, true⟩]⟩]⟩
        sampleState).renderable.map
      (fun r => ((r.prims.map Prim.materialIndex).dedup).length)) = some 0 ∧
      ((cmdKeys 100 ⟨[⟨0, 0, [⟨3, ⟨0, 0, 0, 0⟩, true⟩]⟩]⟩).dedup).length =
        1 ∧
      (0 : Nat) ≠ 1 := by
  refine ⟨by decide, by decide, by decide⟩

/-- Witness for C2: a mixed frame with two distinct clip rectangles among
three non-callback commands and one callback command. -/
theorem update_material_assignment_witness :
    (update true 100 100 rtSample sampleState).material_instances =
      max sampleState.material_instances (frameKeys 100 rtSample).length ∧
      sampleState.material_instances ≤
        (update true 100 100 rtSample sampleState).material_instances ∧
      ((frameKeys 100 rtSample).length ≤ sampleState.material_instances →
        (update true 100 100 rtSample sampleState).material_instances =
          sampleState.material_instances) ∧
      (sampleState.material_instances < (frameKeys 100 rtSample).length →
        (update true 100 100 rtSample sampleState).material_instances -
            sampleState.material_instances =
          (frameKeys 100 rtSample).length -
            sampleState.material_instances) ∧
      (∀ r, (update true 100 100 rtSample sampleState).renderable = some r →
        ((r.prims.map Prim.materialIndex).dedup).length =
          ((ncCmdKeys 100 rtSample).dedup).length) :=
  update_material_assignment true 100 100 rtSample sampleState
    (by decide) (by decide)

/-! ## Claim C3 -/

/-- Claim C3: for every buffer slot and every sequence of update calls, the
slot's vertex (resp. index) capacity never decreases; an existing slot's
capacity changes only during a call that requested more than the current
capacity for that slot (the request being the slot's draw-list element count,
and the new capacity exactly that request); and after every request the
capacity is at least the requested count — over a whole frame sequence, the
final capacity covers every count ever requested for that slot. -/
theorem buffer_capacity_invariant (t : Bool) (fbw fbh : Int)
    (dd : ImDrawData) (s : BridgeState) (j : Nat) (frames : List Frame) :
    (capV (update t fbw fbh dd s) j ≥ capV s j ∧
      capI (update t fbw fbh dd s) j ≥ capI s j) ∧
      (j < s.vertex_buffers.length →
        capV (update t fbw fbh dd s) j ≠ capV s j →
        ¬ (fbw = 0 ∨ fbh = 0) ∧
          ∃ l, dd.cmdLists[j]? = some l ∧ l.vtxBufferSize > capV s j ∧
            capV (update t fbw fbh dd s) j = l.vtxBufferSize) ∧
      (j < s.index_buffers.length →
        capI (update t fbw fbh dd s) j ≠ capI s j →
        ¬ (fbw = 0 ∨ fbh = 0) ∧
          ∃ l, dd.cmdLists[j]? = some l ∧ l.idxBufferSize > capI s j ∧
            capI (update t fbw fbh dd s) j = l.idxBufferSize) ∧
      (¬ (fbw = 0 ∨ fbh = 0) → ∀ l, dd.cmdLists[j]? = some l →
        capV (update t fbw fbh dd s) j ≥ l.vtxBufferSize ∧
          capI (update t fbw fbh dd s) j ≥ l.idxBufferSize) ∧
      (∀ f ∈ frames, ¬ (f.fbwidth = 0 ∨ f.fbheight = 0) →
        ∀ l, f.imguiData.cmdLists[j]? = some l →
          capV (runFrames t frames s) j ≥ l.vtxBufferSize ∧
            capI (runFrames t frames s) j ≥ l.idxBufferSize) := by
  obtain ⟨u1, _, _, u4, u5, u6⟩ := update_cap t fbw fbh dd s
  exact ⟨u1 j, u4 j, u5 j, fun hnz l hl => u6 hnz j l hl,
    fun f hf hnz l hl => runFrames_cap_request t frames s j f hf hnz l hl⟩

/-- Witness for C3: after running one frame requesting 10 vertices / 30
indices for slot 0 on `sampleState`, the final capacities cover the request
(and the single-frame request part holds directly). -/
theorem buffer_capacity_invariant_witness :
    capV (runFrames true [⟨100, 100, sampleDrawData⟩] sampleState) 0 ≥
        (⟨10, 30, [⟨30, ⟨0, 0, 10, 10⟩, false⟩]⟩ : DrawList).vtxBufferSize ∧
      capI (runFrames true [⟨100, 100, sampleDrawData⟩] sampleState) 0 ≥
        (⟨10, 30, [⟨30, ⟨0, 0, 10, 10⟩, false⟩]⟩ : DrawList).idxBufferSize :=
  (buffer_capacity_invariant true 100 100 sampleDrawData sampleState 0
      [⟨100, 100, sampleDrawData⟩]).2.2.2.2
    ⟨100, 100, sampleDrawData⟩ (List.mem_singleton.mpr rfl) (by decide)
    ⟨10, 30, [⟨30, ⟨0, 0, 10, 10⟩, false⟩]⟩ (by decide)

/-! ## Claim C7 -/

/-- Claim C7: within any single `update` call the blocking fence wait of
`syncThreads` executes at most once (the counter grows by at most one),
whatever buffer creation happens in the call; it executes zero times when no
buffer is created or recreated (enough slots, and every slot's capacity
covers the frame's requirement); and with threading unavailable it is a
no-op (the counter never moves). -/
theorem syncThreads_once_per_update (t : Bool) (fbw fbh : Int)
    (dd : ImDrawData) (s : BridgeState) :
    s.fence_waits ≤ (update t fbw fbh dd s).fence_waits ∧
      (update t fbw fbh dd s).fence_waits ≤ s.fence_waits + 1 ∧
      (t = false → (update t fbw fbh dd s).fence_waits = s.fence_waits) ∧
      ((dd.cmdLists.length ≤ s.vertex_buffers.length ∧
          dd.cmdLists.length ≤ s.index_buffers.length ∧
          ∀ p ∈ dd.cmdLists.enum,
            p.2.vtxBufferSize ≤
                (s.vertex_buffers.getD p.1 ⟨0, 0⟩).capacity ∧
              p.2.idxBufferSize ≤
                (s.index_buffers.getD p.1 ⟨0, 0⟩).capacity) →
        (update t fbw fbh dd s).fence_waits = s.fence_waits) := by
  by_cases hz : fbw = 0 ∨ fbh = 0
  · rw [update_skip_eq t fbw fbh dd s hz]
    exact ⟨Nat.le_refl _, Nat.le_succ _, fun _ => rfl, fun _ => rfl⟩
  · rw [update_eq t fbw fbh dd s hz]
    set s1 : BridgeState := { s with has_synced := false } with hs1
    set s2 := createBuffers t s1 dd.cmdLists.length with hs2
    set s3 := (if (frameKeys fbh dd).length > s2.material_instances then
        { s2 with material_instances := (frameKeys fbh dd).length }
      else s2) with hs3
    have hb1 : fenceBound t s.fence_waits s1 := by
      refine ⟨Nat.le_refl _, ?_⟩
      show s.fence_waits ≤
        s.fence_waits + (if t then (if false then 1 else 0) else 0)
      split <;> simp
    have hb2 : fenceBound t s.fence_waits s2 :=
      fenceBound_createBuffers t _ s1 _ hb1
    have hb3 : fenceBound t s.fence_waits s3 := by
      rw [hs3]
      split
      · exact hb2
      · exact hb2
    obtain ⟨hlo, hhi⟩ := fenceBound_populateAll t _ s3 dd hb3
    refine ⟨hlo, ?_, ?_, ?_⟩
    · show (populateAll t s3 dd).fence_waits ≤ s.fence_waits + 1
      split_ifs at hhi <;> omega
    · intro ht
      subst ht
      show (populateAll false s3 dd).fence_waits = s.fence_waits
      simp at hhi
      omega
    · intro hg
      obtain ⟨g1, g2, g3⟩ := hg
      have hv1 : s1.vertex_buffers = s.vertex_buffers := rfl
      have hi1 : s1.index_buffers = s.index_buffers := rfl
      have hcb : s2 = s1 := by
        rw [hs2]
        exact createBuffers_noop t s1 dd.cmdLists.length g1 g2
      have h3v : s3.vertex_buffers = s.vertex_buffers := by
        rw [hs3]
        split
        · show s2.vertex_buffers = s.vertex_buffers
          rw [hcb]
        · rw [hcb]
      have h3i : s3.index_buffers = s.index_buffers := by
        rw [hs3]
        split
        · show s2.index_buffers = s.index_buffers
          rw [hcb]
        · rw [hcb]
      have h3f : s3.fence_waits = s.fence_waits := by
        rw [hs3]
        split
        · show s2.fence_waits = s.fence_waits
          rw [hcb]
        · rw [hcb]
      have hpa : populateAll t s3 dd = s3 := by
        refine populateAll_noop t s3 dd ?_
        intro p hp
        rw [h3v, h3i]
        exact g3 p hp
      show (populateAll t s3 dd).fence_waits = s.fence_waits
      rw [hpa, h3f]

/-- Witness for C7: a frame that needs no growth on `sampleState` performs
zero fence waits. -/
theorem syncThreads_once_per_update_witness :
    (update true 100 100 sampleDrawData sampleState).fence_waits =
      sampleState.fence_waits :=
  (syncThreads_once_per_update true 100 100 sampleDrawData
      sampleState).2.2.2 ⟨by decide, by decide, by decide⟩

/-! ## Claim C6 -/

/-- Claim C6: when `createBuffers(n)` is called with `n` greater than the
current slot count, exactly `n - previous` new slots are appended, each
created with capacity 1000 vertices / 5000 indices (at generation 1: one
creation from the `nullptr` placeholder), pre-existing slots are untouched,
and with `n` not exceeding the slot count nothing changes; when a slot's
capacity is smaller than the count required by `populateVertexData`, the
slot's resource is destroyed and a new one created (generation bump) with
capacity exactly the required count. -/
theorem createBuffers_defaults_populate_exact (t : Bool) (s : BridgeState)
    (n i vbb ibb : Nat) :
    (s.vertex_buffers.length < n →
      (createBuffers t s n).vertex_buffers.length = n ∧
      (∀ j, j < s.vertex_buffers.length →
        (createBuffers t s n).vertex_buffers[j]? = s.vertex_buffers[j]?) ∧
      (∀ j, s.vertex_buffers.length ≤ j → j < n →
        (createBuffers t s n).vertex_buffers[j]? = some ⟨1000, 1⟩)) ∧
      (s.index_buffers.length < n →
        (createBuffers t s n).index_buffers.length = n ∧
        (∀ j, j < s.index_buffers.length →
          (createBuffers t s n).index_buffers[j]? = s.index_buffers[j]?) ∧
        (∀ j, s.index_buffers.length ≤ j → j < n →
          (createBuffers t s n).index_buffers[j]? = some ⟨5000, 1⟩)) ∧
      (n ≤ s.vertex_buffers.length →
        (createBuffers t s n).vertex_buffers = s.vertex_buffers) ∧
      (n ≤ s.index_buffers.length →
        (createBuffers t s n).index_buffers = s.index_buffers) ∧
      (vbb / imDrawVertSize > (s.vertex_buffers.getD i ⟨0, 0⟩).capacity →
        (populateVertexData t s i vbb ibb).vertex_buffers[i]? =
          (s.vertex_buffers[i]?).map
            (fun b => ⟨vbb / imDrawVertSize, b.generation + 1⟩)) ∧
      (ibb / 2 > (s.index_buffers.getD i ⟨0, 0⟩).capacity →
        (populateVertexData t s i vbb ibb).index_buffers[i]? =
          (s.index_buffers[i]?).map (fun b => ⟨ibb / 2, b.generation + 1⟩)) := by
  obtain ⟨c1, c2, c3, c4, c5, c6⟩ := createBuffers_spec t s n
  obtain ⟨p1, p2, p3, p4⟩ := populateVertexData_spec t s i vbb ibb
  refine ⟨c4, c6, c3, c5, ?_, ?_⟩
  · intro h
    rw [p3, if_pos h, List.getElem?_modify]
    cases s.vertex_buffers[i]? <;> simp
  · intro h
    rw [p4, if_pos h, List.getElem?_modify]
    cases s.index_buffers[i]? <;> simp

/-- Witness for C6: one existing slot pair, growth to two slots, and a
populate call of 1500 vertices (30000 bytes) / 6000 indices (12000 bytes)
against capacities 1000/5000. -/
theorem createBuffers_defaults_populate_exact_witness :
    (sampleState.vertex_buffers.length < 2 →
      (createBuffers true sampleState 2).vertex_buffers.length = 2 ∧
      (∀ j, j < sampleState.vertex_buffers.length →
        (createBuffers true sampleState 2).vertex_buffers[j]? =
          sampleState.vertex_buffers[j]?) ∧
      (∀ j, sampleState.vertex_buffers.length ≤ j → j < 2 →
        (createBuffers true sampleState 2).vertex_buffers[j]? =
          some ⟨1000, 1⟩)) ∧
      (sampleState.index_buffers.length < 2 →
        (createBuffers true sampleState 2).index_buffers.length = 2 ∧
        (∀ j, j < sampleState.index_buffers.length →
          (createBuffers true sampleState 2).index_buffers[j]? =
            sampleState.index_buffers[j]?) ∧
        (∀ j, sampleState.index_buffers.length ≤ j → j < 2 →
          (createBuffers true sampleState 2).index_buffers[j]? =
            some ⟨5000, 1⟩)) ∧
      (2 ≤ sampleState.vertex_buffers.length →
        (createBuffers true sampleState 2).vertex_buffers =
          sampleState.vertex_buffers) ∧
      (2 ≤ sampleState.index_buffers.length →
        (createBuffers true sampleState 2).index_buffers =
          sampleState.index_buffers) ∧
      (30000 / imDrawVertSize >
          (sampleState.vertex_buffers.getD 0 ⟨0, 0⟩).capacity →
        (populateVertexData true sampleState 0 30000
            12000).vertex_buffers[0]? =
          (sampleState.vertex_buffers[0]?).map
            (fun b => ⟨30000 / imDrawVertSize, b.generation + 1⟩)) ∧
      (12000 / 2 > (sampleState.index_buffers.getD 0 ⟨0, 0⟩).capacity →
        (populateVertexData true sampleState 0 30000
            12000).index_buffers[0]? =
          (sampleState.index_buffers[0]?).map
            (fun b => ⟨12000 / 2, b.generation + 1⟩)) :=
  createBuffers_defaults_populate_exact true sampleState 2 0 30000 12000

end Open3D
